import Mathlib

/-!
Verification of the CNC time-study interpreter (`backend/main.py`).

The numeric domain of the Python code (IEEE floats) is embedded as the real
numbers `ℝ`.  Lines of a program are embedded after tokenization: a program is
a list of lines, each line a list of tokens.  A token records its full
uppercased text (`str`) together with the value Python's `float(str[1:])`
would produce on its numeric suffix (`val`); `val = none` models a suffix on
which `float` raises `ValueError`.  Fallible interpretation is embedded in
`Except String`.
-/

namespace CNC

/-- A tokenizer match: the token text and the parse of its numeric suffix.
`val = none` models a suffix that Python's `float` rejects. -/
structure Token where
  str : String
  val : Option ℝ

/-- A toolpath segment as appended by `add_segment` (main.py line 76):
a kind tag plus both endpoints. -/
structure Segment where
  kind : String
  p0 : ℝ × ℝ
  p1 : ℝ × ℝ

/-- The caller-supplied parameters of `analyze` (main.py lines 108-124). -/
structure Params where
  rapid_accel_g : ℝ
  cut_accel_g : ℝ
  pierce_time : ℝ
  lifter_time : ℝ
  default_rapid_ipm : ℝ
  default_cut_ipm : ℝ
  beam_on_code : String
  beam_off_code : String
  inch_mode_code : String
  metric_mode_code : String
  abs_mode_code : String
  rel_mode_code : String

/-- The documented form-field defaults of `analyze` (main.py lines 111-124). -/
def defaultParams : Params :=
  { rapid_accel_g := 1.0
    cut_accel_g := 0.5
    pierce_time := 1.0
    lifter_time := 0.5
    default_rapid_ipm := 500.0
    default_cut_ipm := 100.0
    beam_on_code := "M07"
    beam_off_code := "M08"
    inch_mode_code := "G70"
    metric_mode_code := "G71"
    abs_mode_code := "G90"
    rel_mode_code := "G91" }

/-- Model of Python's `str.upper()` for the ASCII command tokens this program
handles, written over the character list so that it evaluates in the kernel. -/
def pyUpper (s : String) : String :=
  ⟨s.data.map Char.toUpper⟩

/-- Model of Python's `str.strip()`: drop whitespace from both ends. -/
def pyStrip (s : String) : String :=
  ⟨(((s.data.dropWhile Char.isWhitespace).reverse.dropWhile Char.isWhitespace).reverse)⟩

/-- Model of Python's `str.startswith`, written over the character lists so
that it evaluates in the kernel. -/
def pyStartsWith (s p : String) : Bool :=
  p.data.isPrefixOf s.data

/-- Embedding of `normalize_mcode` (main.py lines 52-59). -/
def normalize_mcode (code : String) : String :=
  let code := pyUpper (pyStrip code)
  match code.data with
  | [] => code
  | c :: restChars =>
    if c = 'M' then
      let num : String := ⟨restChars.dropWhile (fun ch => ch = '0')⟩
      "M" ++ (if num = "" then "0" else num)
    else code

/-- Embedding of `move_time_trap` (main.py lines 61-74). -/
noncomputable def move_time_trap (distance_mm feed_mm_min accel_g : ℝ) : ℝ :=
  if distance_mm ≤ 0 ∨ feed_mm_min ≤ 0 ∨ accel_g ≤ 0 then 0
  else
    let vmax := feed_mm_min / 60
    let a := accel_g * 9.81 * 1000
    let d_acc := vmax * vmax / (2 * a)
    if 2 * d_acc < distance_mm then
      let t_acc := vmax / a
      let d_cruise := distance_mm - 2 * d_acc
      let t_cruise := d_cruise / vmax
      2 * t_acc + t_cruise
    else
      let v_peak := Real.sqrt (distance_mm * a)
      let t_acc := v_peak / a
      2 * t_acc

/-- Reference Motion Timing Model written from the specification's words
(spec sections 4.5 and 8), to be compared against `move_time_trap`. -/
noncomputable def move_time_spec (distance feed accel : ℝ) : ℝ :=
  if distance ≤ 0 ∨ feed ≤ 0 ∨ accel ≤ 0 then 0
  else
    let v := feed / 60
    let a := accel * 9.81 * 1000
    let d_acc := v ^ 2 / (2 * a)
    if 2 * d_acc < distance then
      2 * (v / a) + (distance - 2 * d_acc) / v
    else
      2 * (Real.sqrt (distance * a) / a)

/-- Embedding of `math.hypot` over the reals. -/
noncomputable def hypot (dx dy : ℝ) : ℝ :=
  Real.sqrt (dx ^ 2 + dy ^ 2)

/-- Embedding of `math.atan2 y x` over the reals: the argument of the complex
number `x + y*i`, in `(-pi, pi]`. -/
noncomputable def atan2 (y x : ℝ) : ℝ :=
  Complex.arg { re := x, im := y }

/-- Interpreter state: the Python locals of `analyze` that persist across
lines (main.py lines 133-141), plus `cxcy`, which models the locals `cx`, `cy`
of the arc branch: because main.py lines 276-277 sit inside the arc token
loop, `cx`/`cy` are bound only after an arc line with at least one parameter
token has been interpreted, and persist from one arc line to the next.
`cxcy = none` models the unbound state (reading it raises `NameError`). -/
structure St where
  x : ℝ
  y : ℝ
  beam_on : Bool
  feed_mm_min : ℝ
  unit_factor : ℝ
  absolute_mode : Bool
  cut_time_s : ℝ
  travel_time_s : ℝ
  pierce_time_s : ℝ
  dwell_time_s : ℝ
  lifter_time_s : ℝ
  pierce_count : ℕ
  beam_cycles : ℕ
  toolpath : List Segment
  cxcy : Option (ℝ × ℝ)

/-- Initial interpreter state (main.py lines 133-141). -/
def initSt : St :=
  { x := 0, y := 0, beam_on := false, feed_mm_min := 0, unit_factor := 1
    absolute_mode := true
    cut_time_s := 0, travel_time_s := 0, pierce_time_s := 0
    dwell_time_s := 0, lifter_time_s := 0
    pierce_count := 0, beam_cycles := 0, toolpath := [], cxcy := none }

/-- Per-run derived configuration (main.py lines 130-149): unit-converted
default feeds and the normalized command identities. -/
structure Cfg where
  default_rapid_mm_min : ℝ
  default_cut_mm_min : ℝ
  rapid_accel_g : ℝ
  cut_accel_g : ℝ
  pierce_time : ℝ
  lifter_time : ℝ
  target_on : String
  target_off : String
  inch_mode : String
  metric_mode : String
  abs_mode : String
  rel_mode : String

/-- Embedding of the prologue of `analyze` (main.py lines 130-149). -/
def Params.toCfg (P : Params) : Cfg :=
  { default_rapid_mm_min := P.default_rapid_ipm * 25.4
    default_cut_mm_min := P.default_cut_ipm * 25.4
    rapid_accel_g := P.rapid_accel_g
    cut_accel_g := P.cut_accel_g
    pierce_time := P.pierce_time
    lifter_time := P.lifter_time
    target_on := normalize_mcode P.beam_on_code
    target_off := normalize_mcode P.beam_off_code
    inch_mode := pyUpper (pyStrip P.inch_mode_code)
    metric_mode := pyUpper (pyStrip P.metric_mode_code)
    abs_mode := pyUpper (pyStrip P.abs_mode_code)
    rel_mode := pyUpper (pyStrip P.rel_mode_code) }

/-- Model of Python `float(t[1:])`: the token's recorded suffix value, raising
`ValueError` when the suffix does not parse. -/
def floatVal (t : Token) : Except String ℝ :=
  match t.val with
  | some v => .ok v
  | none => .error "ValueError"

/-- Embedding of the dwell operand loop (main.py lines 202-208). -/
noncomputable def dwellFold : List Token → ℝ → Except String ℝ
  | [], d => .ok d
  | t :: ts, d =>
    if pyStartsWith t.str "S" then
      match floatVal t with
      | .error e => .error e
      | .ok v => dwellFold ts v
    else if pyStartsWith t.str "P" then
      match floatVal t with
      | .error e => .error e
      | .ok v => dwellFold ts (if v > 50 then v / 1000 else v)
    else dwellFold ts d

/-- Embedding of the sticky-feed update loop (main.py lines 213-215). -/
noncomputable def applyFeed (uf : ℝ) : List Token → ℝ → Except String ℝ
  | [], f => .ok f
  | t :: ts, f =>
    if pyStartsWith t.str "F" then
      match floatVal t with
      | .error e => .error e
      | .ok v => applyFeed uf ts (v * uf)
    else applyFeed uf ts f

/-- Embedding of the rapid-move token loop (main.py lines 219-226). -/
noncomputable def rapidFold (uf : ℝ) (am : Bool) (x y : ℝ) :
    List Token → ℝ × ℝ → Except String (ℝ × ℝ)
  | [], acc => .ok acc
  | t :: ts, (nx, ny) =>
    if pyStartsWith t.str "X" then
      match floatVal t with
      | .error e => .error e
      | .ok v => rapidFold uf am x y ts (if am then v * uf else x + v * uf, ny)
    else if pyStartsWith t.str "Y" then
      match floatVal t with
      | .error e => .error e
      | .ok v => rapidFold uf am x y ts (nx, if am then v * uf else y + v * uf)
    else rapidFold uf am x y ts (nx, ny)

/-- Embedding of the linear-move token loop (main.py lines 235-245):
accumulator is target x, target y, local feed. -/
noncomputable def linearFold (uf : ℝ) (am : Bool) (x y : ℝ) :
    List Token → ℝ × ℝ × ℝ → Except String (ℝ × ℝ × ℝ)
  | [], acc => .ok acc
  | t :: ts, (nx, ny, lf) =>
    if pyStartsWith t.str "X" then
      match floatVal t with
      | .error e => .error e
      | .ok v => linearFold uf am x y ts (if am then v * uf else x + v * uf, ny, lf)
    else if pyStartsWith t.str "Y" then
      match floatVal t with
      | .error e => .error e
      | .ok v => linearFold uf am x y ts (nx, if am then v * uf else y + v * uf, lf)
    else if pyStartsWith t.str "F" then
      match floatVal t with
      | .error e => .error e
      | .ok v => linearFold uf am x y ts (nx, ny, v * uf)
    else linearFold uf am x y ts (nx, ny, lf)

/-- Embedding of the arc token loop (main.py lines 259-277): accumulator is
target x, target y, I offset, J offset, local feed, and the `cx`/`cy` locals.
Faithful to the source's indentation, `cx`/`cy` are (re)assigned at the end of
every iteration of the loop, so they keep their previous binding when the
line has no parameter tokens. -/
noncomputable def arcFold (uf : ℝ) (am : Bool) (x y : ℝ) :
    List Token → ℝ × ℝ × ℝ × ℝ × ℝ × Option (ℝ × ℝ) →
    Except String (ℝ × ℝ × ℝ × ℝ × ℝ × Option (ℝ × ℝ))
  | [], acc => .ok acc
  | t :: ts, (nx, ny, i_off, j_off, lf, _cxcy) =>
    let put := fun (nx' ny' i' j' lf' : ℝ) =>
      arcFold uf am x y ts (nx', ny', i', j', lf', some (x + i', y + j'))
    if pyStartsWith t.str "X" then
      match floatVal t with
      | .error e => .error e
      | .ok v => put (if am then v * uf else x + v * uf) ny i_off j_off lf
    else if pyStartsWith t.str "Y" then
      match floatVal t with
      | .error e => .error e
      | .ok v => put nx (if am then v * uf else y + v * uf) i_off j_off lf
    else if pyStartsWith t.str "I" then
      match floatVal t with
      | .error e => .error e
      | .ok v => put nx ny (v * uf) j_off lf
    else if pyStartsWith t.str "J" then
      match floatVal t with
      | .error e => .error e
      | .ok v => put nx ny i_off (v * uf) lf
    else if pyStartsWith t.str "F" then
      match floatVal t with
      | .error e => .error e
      | .ok v => put nx ny i_off j_off (v * uf)
    else put nx ny i_off j_off lf

/-- Embedding of the signed angular delta resolution (main.py lines 284-291). -/
noncomputable def resolveDelta (cmd : String) (x y nx ny i_off j_off a1 a2 : ℝ) : ℝ :=
  if |nx - x| < 1e-9 ∧ |ny - y| < 1e-9 ∧ (|i_off| > 1e-12 ∨ |j_off| > 1e-12) then
    if pyStartsWith cmd "G2" then -(2 * Real.pi) else 2 * Real.pi
  else
    let delta := a2 - a1
    let delta := if pyStartsWith cmd "G2" ∧ delta > 0 then delta - 2 * Real.pi else delta
    if pyStartsWith cmd "G3" ∧ delta < 0 then delta + 2 * Real.pi else delta

/-- Model of Python's `int()` on a real value: truncation toward zero. -/
noncomputable def pyIntTrunc (v : ℝ) : ℤ :=
  if 0 ≤ v then ⌊v⌋ else ⌈v⌉

/-- Embedding of the arc discretization count (main.py line 300):
`steps = max(40, int(abs(delta) * 80))`. -/
noncomputable def arcSteps (delta : ℝ) : ℕ :=
  (max 40 (pyIntTrunc (|delta| * 80))).toNat

/-- The point of the discretized arc at loop index `s` (main.py lines 303-305). -/
noncomputable def arcPoint (cx cy r a1 delta : ℝ) (steps : ℕ) (s : ℕ) : ℝ × ℝ :=
  (cx + r * Real.cos (a1 + delta * ((s : ℝ) / (steps : ℝ))),
   cy + r * Real.sin (a1 + delta * ((s : ℝ) / (steps : ℝ))))

/-- Embedding of the arc emission loop (main.py lines 301-307), iterating the
loop indices `sIdx, sIdx+1, ...` for `fuel` iterations while chaining the
previous point `pprev` exactly as the source does. -/
noncomputable def emitArcFrom (kind : String) (cx cy r a1 delta : ℝ) (steps : ℕ) :
    (ℝ × ℝ) → ℕ → ℕ → List Segment
  | _, _, 0 => []
  | pprev, sIdx, fuel + 1 =>
    let p := arcPoint cx cy r a1 delta steps sIdx
    ⟨kind, pprev, p⟩ :: emitArcFrom kind cx cy r a1 delta steps p (sIdx + 1) fuel

/-- Segments emitted for one arc: loop `for s in range(1, steps + 1)`
(main.py lines 301-307) starting from the current position `p0`. -/
noncomputable def emitArcList (kind : String) (cx cy r a1 delta : ℝ) (steps : ℕ)
    (p0 : ℝ × ℝ) : List Segment :=
  emitArcFrom kind cx cy r a1 delta steps p0 1 steps

/-- Embedding of the rapid-move branch (main.py lines 218-231), taken after
the sticky feed of `st` has been updated. -/
noncomputable def stepRapid (C : Cfg) (st : St) (rest : List Token) : Except String St :=
  match rapidFold st.unit_factor st.absolute_mode st.x st.y rest (st.x, st.y) with
  | .error e => .error e
  | .ok (nx, ny) =>
    let dist := hypot (nx - st.x) (ny - st.y)
    .ok { st with
          travel_time_s := st.travel_time_s +
            move_time_trap dist C.default_rapid_mm_min C.rapid_accel_g
          toolpath := st.toolpath ++ [⟨"travel", (st.x, st.y), (nx, ny)⟩]
          x := nx, y := ny }

/-- Embedding of the linear-move branch (main.py lines 234-255), taken after
the sticky feed of `st` has been updated. -/
noncomputable def stepLinear (C : Cfg) (st : St) (rest : List Token) : Except String St :=
  match linearFold st.unit_factor st.absolute_mode st.x st.y rest
      (st.x, st.y, st.feed_mm_min) with
  | .error e => .error e
  | .ok (nx, ny, local_feed) =>
    let dist := hypot (nx - st.x) (ny - st.y)
    if st.beam_on then
      let fr := if local_feed > 0 then local_feed else C.default_cut_mm_min
      .ok { st with
            cut_time_s := st.cut_time_s + move_time_trap dist fr C.cut_accel_g
            toolpath := st.toolpath ++ [⟨"cut", (st.x, st.y), (nx, ny)⟩]
            x := nx, y := ny }
    else
      .ok { st with
            travel_time_s := st.travel_time_s +
              move_time_trap dist C.default_rapid_mm_min C.rapid_accel_g
            toolpath := st.toolpath ++ [⟨"travel", (st.x, st.y), (nx, ny)⟩]
            x := nx, y := ny }

/-- Embedding of the circular-move branch (main.py lines 258-309), taken after
the sticky feed of `st` has been updated; `cmd` is the line's command token. -/
noncomputable def stepArc (C : Cfg) (st : St) (cmd : String) (rest : List Token) :
    Except String St :=
  match arcFold st.unit_factor st.absolute_mode st.x st.y rest
      (st.x, st.y, 0, 0, st.feed_mm_min, st.cxcy) with
  | .error e => .error e
  | .ok (nx, ny, i_off, j_off, local_feed, cxcy) =>
    match cxcy with
    | none => .error "NameError"
    | some (cx, cy) =>
      let st2 := { st with cxcy := some (cx, cy) }
      let r := hypot (st2.x - cx) (st2.y - cy)
      if r ≤ 0 then .ok { st2 with x := nx, y := ny }
      else
        let a1 := atan2 (st2.y - cy) (st2.x - cx)
        let a2 := atan2 (ny - cy) (nx - cx)
        let delta := resolveDelta cmd st2.x st2.y nx ny i_off j_off a1 a2
        let arc_len := |delta| * r
        let steps := arcSteps delta
        if st2.beam_on then
          let fr := if local_feed > 0 then local_feed else C.default_cut_mm_min
          .ok { st2 with
                cut_time_s := st2.cut_time_s + move_time_trap arc_len fr C.cut_accel_g
                toolpath := st2.toolpath ++
                  emitArcList "cut" cx cy r a1 delta steps (st2.x, st2.y)
                x := nx, y := ny }
        else
          .ok { st2 with
                travel_time_s := st2.travel_time_s +
                  move_time_trap arc_len C.default_rapid_mm_min C.rapid_accel_g
                toolpath := st2.toolpath ++
                  emitArcList "travel" cx cy r a1 delta steps (st2.x, st2.y)
                x := nx, y := ny }

/-- Embedding of one iteration of the line loop of `analyze`
(main.py lines 164-309), from the token list of the line. -/
noncomputable def stepLine (C : Cfg) (st : St) (parts : List Token) : Except String St :=
  match parts with
  | [] => .ok st
  | cmdTok :: rest =>
    let cmd := cmdTok.str
    if cmd = C.inch_mode ∨ cmd = "G20" then .ok { st with unit_factor := 25.4 }
    else if cmd = C.metric_mode ∨ cmd = "G21" then .ok { st with unit_factor := 1 }
    else if cmd = C.abs_mode then .ok { st with absolute_mode := true }
    else if cmd = C.rel_mode then .ok { st with absolute_mode := false }
    else if normalize_mcode cmd = C.target_on then
      if st.beam_on then .ok st
      else
        .ok { st with beam_on := true
                      pierce_time_s := st.pierce_time_s + C.pierce_time
                      lifter_time_s := st.lifter_time_s + C.lifter_time
                      pierce_count := st.pierce_count + 1
                      beam_cycles := st.beam_cycles + 1 }
    else if normalize_mcode cmd = C.target_off then
      if st.beam_on then
        .ok { st with beam_on := false
                      lifter_time_s := st.lifter_time_s + C.lifter_time
                      beam_cycles := st.beam_cycles + 1 }
      else .ok st
    else if cmd = "G4" ∨ cmd = "G04" then
      match dwellFold rest 0 with
      | .error e => .error e
      | .ok d => .ok { st with dwell_time_s := st.dwell_time_s + d }
    else
      match applyFeed st.unit_factor rest st.feed_mm_min with
      | .error e => .error e
      | .ok feed =>
        let st1 := { st with feed_mm_min := feed }
        if cmd = "G0" ∨ cmd = "G00" then stepRapid C st1 rest
        else if cmd = "G1" ∨ cmd = "G01" then stepLinear C st1 rest
        else if cmd = "G2" ∨ cmd = "G02" ∨ cmd = "G3" ∨ cmd = "G03" then
          stepArc C st1 cmd rest
        else .ok st1

/-- Embedding of the line loop of `analyze` over a whole program. -/
noncomputable def runLines (C : Cfg) (st : St) : List (List Token) → Except String St
  | [] => .ok st
  | l :: ls =>
    match stepLine C st l with
    | .error e => .error e
    | .ok st' => runLines C st' ls

/-- One full run of the interpreter core of `analyze`: derived configuration,
initial state, then the line loop.  The result is the final interpreter state
from which the response record is assembled (main.py lines 311-331). -/
noncomputable def analyzeRun (P : Params) (lines : List (List Token)) : Except String St :=
  runLines P.toCfg initSt lines

/-- Endpoint of the last emitted segment, or the origin if none was emitted:
the reference point of the spec's position invariant (spec section 3). -/
def lastEndpoint (tp : List Segment) : ℝ × ℝ :=
  (tp.getLast?.map Segment.p1).getD (0, 0)

/-- The line's command token is not a circular-move command. -/
def noArcCmd : List Token → Prop
  | [] => True
  | t :: _ => ¬(t.str = "G2" ∨ t.str = "G02" ∨ t.str = "G3" ∨ t.str = "G03")

/-- If the line is a dwell command, every `S`/`P` operand it carries parses to
a non-negative value. -/
def DwellNonnegLine : List Token → Prop
  | [] => True
  | t :: rest =>
    (t.str = "G4" ∨ t.str = "G04") →
      ∀ u ∈ rest, (pyStartsWith u.str "S" = true ∨ pyStartsWith u.str "P" = true) →
        ∀ v, u.val = some v → 0 ≤ v

/-- Every dwell line of the program carries only non-negative `S`/`P`
operands. -/
def NonnegDwellOps (lines : List (List Token)) : Prop :=
  ∀ l ∈ lines, DwellNonnegLine l

/-- All numeric fields of the ParameterSet are positive (spec section 3). -/
def PosParams (P : Params) : Prop :=
  0 < P.rapid_accel_g ∧ 0 < P.cut_accel_g ∧ 0 < P.pierce_time ∧
    0 < P.lifter_time ∧ 0 < P.default_rapid_ipm ∧ 0 < P.default_cut_ipm

end CNC

namespace CNC

/-- C1: the Motion Timing Model of the code agrees with the reference
piecewise definition from the specification at every input. -/
theorem C1_motion_time_matches_spec (d f a : ℝ) :
    move_time_trap d f a = move_time_spec d f a := by
  simp only [move_time_trap, move_time_spec, pow_two]

/-- The default ParameterSet yields these derived command identities. -/
theorem defaultCfg_eq : defaultParams.toCfg =
    { default_rapid_mm_min := 500.0 * 25.4
      default_cut_mm_min := 100.0 * 25.4
      rapid_accel_g := 1.0, cut_accel_g := 0.5, pierce_time := 1.0, lifter_time := 0.5
      target_on := "M7", target_off := "M8"
      inch_mode := "G70", metric_mode := "G71", abs_mode := "G90", rel_mode := "G91" } := rfl

/-- C3 (code bug): the circular command spelled `G02` is a clockwise command,
yet on a full-circle move (target equal to current position, nonzero I
offset) the code resolves the signed delta to `+2*pi`, not the `-2*pi` the
claim requires, because only the bare spelling `G2` passes the
`startswith("G2")` test. -/
theorem C3_padded_clockwise_full_circle :
    resolveDelta "G02" 0 0 0 0 1 0 0 0 = 2 * Real.pi ∧
    (2 * Real.pi : ℝ) ≠ -(2 * Real.pi) := by
  constructor
  · rw [resolveDelta, if_pos (by norm_num), if_neg]
    simp [show pyStartsWith "G02" "G2" = false from rfl]
  · have h := Real.pi_pos
    intro hc
    nlinarith

/-- C4 (code bug): an arc line carrying no parameter tokens leaves the center
variables unbound (main.py lines 276-277 sit inside the token loop), so the
whole run fails with a NameError instead of treating the move as a
degenerate arc centered at the current point. -/
theorem C4_bare_arc_line_errors :
    analyzeRun defaultParams [[⟨"G2", some 2⟩]] = .error "NameError" := rfl

/-- C5 counterexample: a dwell line carrying an `F` token does not update the
sticky feed; the feed stays `0` although the claim requires it to become
`500` times the unit factor. -/
theorem C5_dwell_feed_cx :
    stepLine defaultParams.toCfg initSt
        [⟨"G4", some 4⟩, ⟨"S1", some 1⟩, ⟨"F500", some 500⟩] =
      .ok { initSt with dwell_time_s := 0 + 1 } ∧
    ({ initSt with dwell_time_s := 0 + 1 } : St).feed_mm_min = 0 ∧
    (0 : ℝ) ≠ 500 * 1 := by
  exact ⟨rfl, rfl, by norm_num⟩

/-- C8 counterexample: a line with the unrecognized command `M100` that
carries an `F` token does change interpreter state: the sticky feed becomes
500, so "no state change at all, even with an F token" fails. -/
theorem C8_unrecognized_feed_cx :
    stepLine defaultParams.toCfg initSt [⟨"M100", some 100⟩, ⟨"F500", some 500⟩] =
      .ok { initSt with feed_mm_min := 500 * 1 } ∧
    (500 * 1 : ℝ) ≠ initSt.feed_mm_min := by
  refine ⟨rfl, ?_⟩
  norm_num [initSt]

/-- C8 (amended): a line whose command token matches no interpreted category
is consumed with no state change other than the sticky feed, which is still
resolved from the line's `F` parameter tokens. -/
theorem C8_unrecognized_only_feed (C : Cfg) (st : St) (cmdTok : Token)
    (rest : List Token) (f : ℝ)
    (h1 : ¬(cmdTok.str = C.inch_mode ∨ cmdTok.str = "G20"))
    (h2 : ¬(cmdTok.str = C.metric_mode ∨ cmdTok.str = "G21"))
    (h3 : ¬(cmdTok.str = C.abs_mode))
    (h4 : ¬(cmdTok.str = C.rel_mode))
    (h5 : ¬(normalize_mcode cmdTok.str = C.target_on))
    (h6 : ¬(normalize_mcode cmdTok.str = C.target_off))
    (h7 : ¬(cmdTok.str = "G4" ∨ cmdTok.str = "G04"))
    (h8 : ¬(cmdTok.str = "G0" ∨ cmdTok.str = "G00"))
    (h9 : ¬(cmdTok.str = "G1" ∨ cmdTok.str = "G01"))
    (h10 : ¬(cmdTok.str = "G2" ∨ cmdTok.str = "G02" ∨ cmdTok.str = "G3" ∨ cmdTok.str = "G03"))
    (hf : applyFeed st.unit_factor rest st.feed_mm_min = .ok f) :
    stepLine C st (cmdTok :: rest) = .ok { st with feed_mm_min := f } := by
  simp only [stepLine, if_neg h1, if_neg h2, if_neg h3, if_neg h4, if_neg h5, if_neg h6,
    if_neg h7, hf, if_neg h8, if_neg h9, if_neg h10]

/-- Witness for C8: the line `M101 F300` under default parameters. -/
theorem C8_unrecognized_only_feed_witness :
    (¬(("M101" : String) = defaultParams.toCfg.inch_mode ∨ ("M101" : String) = "G20")) ∧
    (¬(normalize_mcode "M101" = defaultParams.toCfg.target_on)) ∧
    applyFeed initSt.unit_factor [⟨"F300", some 300⟩] initSt.feed_mm_min = .ok (300 * 1) ∧
    stepLine defaultParams.toCfg initSt [⟨"M101", some 101⟩, ⟨"F300", some 300⟩] =
      .ok { initSt with feed_mm_min := 300 * 1 } := by
  refine ⟨by decide, by decide, rfl, ?_⟩
  exact C8_unrecognized_only_feed defaultParams.toCfg initSt ⟨"M101", some 101⟩
    [⟨"F300", some 300⟩] (300 * 1) (by decide) (by decide) (by decide) (by decide)
    (by decide) (by decide) (by decide) (by decide) (by decide) (by decide) rfl

/-- C6: beam events under the normalized-identity match.  A beam-on command
while the beam is on (or beam-off while off) leaves the state unchanged; an
accepted beam-on sets the beam on, adds the pierce dwell to pierce time and
the lifter dwell to lifter time and increments both counters by one; an
accepted beam-off sets the beam off, adds the lifter dwell to lifter time
and increments only the transition counter. -/
theorem C6_beam_events (C : Cfg) (st : St) (cmdTok : Token) (rest : List Token)
    (h1 : ¬(cmdTok.str = C.inch_mode ∨ cmdTok.str = "G20"))
    (h2 : ¬(cmdTok.str = C.metric_mode ∨ cmdTok.str = "G21"))
    (h3 : ¬(cmdTok.str = C.abs_mode))
    (h4 : ¬(cmdTok.str = C.rel_mode)) :
    (normalize_mcode cmdTok.str = C.target_on →
      stepLine C st (cmdTok :: rest) = .ok (if st.beam_on then st else
        { st with beam_on := true
                  pierce_time_s := st.pierce_time_s + C.pierce_time
                  lifter_time_s := st.lifter_time_s + C.lifter_time
                  pierce_count := st.pierce_count + 1
                  beam_cycles := st.beam_cycles + 1 })) ∧
    (¬(normalize_mcode cmdTok.str = C.target_on) →
      normalize_mcode cmdTok.str = C.target_off →
      stepLine C st (cmdTok :: rest) = .ok (if st.beam_on then
        { st with beam_on := false
                  lifter_time_s := st.lifter_time_s + C.lifter_time
                  beam_cycles := st.beam_cycles + 1 } else st)) := by
  constructor
  · intro hon
    simp only [stepLine, if_neg h1, if_neg h2, if_neg h3, if_neg h4, if_pos hon]
    split <;> rfl
  · intro hnon hoff
    simp only [stepLine, if_neg h1, if_neg h2, if_neg h3, if_neg h4, if_neg hnon, if_pos hoff]
    split <;> rfl

/-- Witness for C6: the accepted beam-on `M7` from the initial state under
default parameters (the configured identity is `M07`, which normalizes to
`M7`). -/
theorem C6_beam_events_witness :
    normalize_mcode "M7" = defaultParams.toCfg.target_on ∧
    stepLine defaultParams.toCfg initSt [⟨"M7", some 7⟩] =
      .ok (if initSt.beam_on then initSt else
        { initSt with beam_on := true
                      pierce_time_s := initSt.pierce_time_s + defaultParams.toCfg.pierce_time
                      lifter_time_s := initSt.lifter_time_s + defaultParams.toCfg.lifter_time
                      pierce_count := initSt.pierce_count + 1
                      beam_cycles := initSt.beam_cycles + 1 }) := by
  refine ⟨by decide, ?_⟩
  exact (C6_beam_events defaultParams.toCfg initSt ⟨"M7", some 7⟩ []
    (by decide) (by decide) (by decide) (by decide)).1 (by decide)


/-- A malformed `F` token in a line's parameter tokens makes the sticky-feed
loop raise, whatever the running feed value is. -/
theorem applyFeed_error_of_malformed (uf : ℝ) (ts : List Token) (bad : Token)
    (hmem : bad ∈ ts) (hF : pyStartsWith bad.str "F" = true) (hval : bad.val = none) :
    ∀ f, ∃ e, applyFeed uf ts f = .error e := by
  induction ts with
  | nil => cases hmem
  | cons t ts ih =>
    intro f
    rcases List.mem_cons.mp hmem with heq | hmem'
    · subst heq
      exact ⟨"ValueError", by simp [applyFeed, hF, floatVal, hval]⟩
    · by_cases hFt : pyStartsWith t.str "F" = true
      · cases hv : t.val with
        | none => exact ⟨"ValueError", by simp [applyFeed, hFt, floatVal, hv]⟩
        | some v =>
          obtain ⟨e, he⟩ := ih hmem' (v * uf)
          exact ⟨e, by simp [applyFeed, hFt, floatVal, hv, he]⟩
      · obtain ⟨e, he⟩ := ih hmem' f
        exact ⟨e, by simp [applyFeed, hFt, he]⟩

/-- A line on which every interpretation attempt raises makes the whole run
fail, wherever the line sits in the program. -/
theorem runLines_no_ok_of_bad_line (C : Cfg) (l : List Token)
    (herr : ∀ st : St, ∃ e, stepLine C st l = .error e) :
    ∀ lines, l ∈ lines → ∀ st0 st' : St, runLines C st0 lines ≠ .ok st' := by
  intro lines
  induction lines with
  | nil => intro h; cases h
  | cons hd tl ih =>
    intro hmem st0 st' hok
    simp only [runLines] at hok
    rcases List.mem_cons.mp hmem with heq | hmem'
    · subst heq
      obtain ⟨e, he⟩ := herr st0
      rw [he] at hok
      simp at hok
    · cases hstep : stepLine C st0 hd with
      | error e => rw [hstep] at hok; simp at hok
      | ok st1 => rw [hstep] at hok; exact ih hmem' st1 st' hok

/-- C7 counterexample: a program whose only line is the unrecognized command
`M100` with the malformed parameter token `X1..2` completes successfully with
the state unchanged; the malformed operand is never parsed, so the run does
not fail. -/
theorem C7_malformed_ignored_cx :
    analyzeRun defaultParams [[⟨"M100", some 100⟩, ⟨"X1..2", none⟩]] = .ok initSt := rfl

/-- A malformed `S`/`P` token makes the dwell operand loop raise. -/
theorem dwellFold_error_of_malformed (ts : List Token) (bad : Token)
    (hmem : bad ∈ ts)
    (hSP : pyStartsWith bad.str "S" = true ∨ pyStartsWith bad.str "P" = true)
    (hval : bad.val = none) :
    ∀ d0, ∃ e, dwellFold ts d0 = .error e := by
  induction ts with
  | nil => cases hmem
  | cons t ts ih =>
    intro d0
    rcases List.mem_cons.mp hmem with heq | hmem'
    · subst heq
      by_cases hS : pyStartsWith bad.str "S" = true
      · exact ⟨"ValueError", by simp [dwellFold, hS, floatVal, hval]⟩
      · have hP := hSP.resolve_left hS
        exact ⟨"ValueError", by simp [dwellFold, hS, hP, floatVal, hval]⟩
    · by_cases hS : pyStartsWith t.str "S" = true
      · cases hv : t.val with
        | none => exact ⟨"ValueError", by simp [dwellFold, hS, floatVal, hv]⟩
        | some v =>
          obtain ⟨e, he⟩ := ih hmem' v
          exact ⟨e, by simp [dwellFold, hS, floatVal, hv, he]⟩
      · by_cases hP : pyStartsWith t.str "P" = true
        · cases hv : t.val with
          | none => exact ⟨"ValueError", by simp [dwellFold, hS, hP, floatVal, hv]⟩
          | some v =>
            obtain ⟨e, he⟩ := ih hmem' (if v > 50 then v / 1000 else v)
            exact ⟨e, by simp [dwellFold, hS, hP, floatVal, hv, he]⟩
        · obtain ⟨e, he⟩ := ih hmem' d0
          exact ⟨e, by simp [dwellFold, hS, hP, he]⟩

/-- A malformed `X`/`Y` token makes the rapid-move token loop raise. -/
theorem rapidFold_error_of_malformed (uf : ℝ) (am : Bool) (x y : ℝ)
    (ts : List Token) (bad : Token) (hmem : bad ∈ ts)
    (hXY : pyStartsWith bad.str "X" = true ∨ pyStartsWith bad.str "Y" = true)
    (hval : bad.val = none) :
    ∀ acc, ∃ e, rapidFold uf am x y ts acc = .error e := by
  induction ts with
  | nil => cases hmem
  | cons t ts ih =>
    intro acc
    obtain ⟨nx, ny⟩ := acc
    rcases List.mem_cons.mp hmem with heq | hmem'
    · subst heq
      by_cases hX : pyStartsWith bad.str "X" = true
      · exact ⟨"ValueError", by simp [rapidFold, hX, floatVal, hval]⟩
      · have hY := hXY.resolve_left hX
        exact ⟨"ValueError", by simp [rapidFold, hX, hY, floatVal, hval]⟩
    · by_cases hX : pyStartsWith t.str "X" = true
      · cases hv : t.val with
        | none => exact ⟨"ValueError", by simp [rapidFold, hX, floatVal, hv]⟩
        | some v =>
          obtain ⟨e, he⟩ := ih hmem' (if am then v * uf else x + v * uf, ny)
          exact ⟨e, by simp [rapidFold, hX, floatVal, hv, he]⟩
      · by_cases hY : pyStartsWith t.str "Y" = true
        · cases hv : t.val with
          | none => exact ⟨"ValueError", by simp [rapidFold, hX, hY, floatVal, hv]⟩
          | some v =>
            obtain ⟨e, he⟩ := ih hmem' (nx, if am then v * uf else y + v * uf)
            exact ⟨e, by simp [rapidFold, hX, hY, floatVal, hv, he]⟩
        · obtain ⟨e, he⟩ := ih hmem' (nx, ny)
          exact ⟨e, by simp [rapidFold, hX, hY, he]⟩

/-- A malformed `X`/`Y`/`F` token makes the linear-move token loop raise. -/
theorem linearFold_error_of_malformed (uf : ℝ) (am : Bool) (x y : ℝ)
    (ts : List Token) (bad : Token) (hmem : bad ∈ ts)
    (hXYF : pyStartsWith bad.str "X" = true ∨ pyStartsWith bad.str "Y" = true ∨
      pyStartsWith bad.str "F" = true)
    (hval : bad.val = none) :
    ∀ acc, ∃ e, linearFold uf am x y ts acc = .error e := by
  induction ts with
  | nil => cases hmem
  | cons t ts ih =>
    intro acc
    obtain ⟨nx, ny, lf⟩ := acc
    rcases List.mem_cons.mp hmem with heq | hmem'
    · subst heq
      by_cases hX : pyStartsWith bad.str "X" = true
      · exact ⟨"ValueError", by simp [linearFold, hX, floatVal, hval]⟩
      · by_cases hY : pyStartsWith bad.str "Y" = true
        · exact ⟨"ValueError", by simp [linearFold, hX, hY, floatVal, hval]⟩
        · have hF := (hXYF.resolve_left hX).resolve_left hY
          exact ⟨"ValueError", by simp [linearFold, hX, hY, hF, floatVal, hval]⟩
    · by_cases hX : pyStartsWith t.str "X" = true
      · cases hv : t.val with
        | none => exact ⟨"ValueError", by simp [linearFold, hX, floatVal, hv]⟩
        | some v =>
          obtain ⟨e, he⟩ := ih hmem' (if am then v * uf else x + v * uf, ny, lf)
          exact ⟨e, by simp [linearFold, hX, floatVal, hv, he]⟩
      · by_cases hY : pyStartsWith t.str "Y" = true
        · cases hv : t.val with
          | none => exact ⟨"ValueError", by simp [linearFold, hX, hY, floatVal, hv]⟩
          | some v =>
            obtain ⟨e, he⟩ := ih hmem' (nx, if am then v * uf else y + v * uf, lf)
            exact ⟨e, by simp [linearFold, hX, hY, floatVal, hv, he]⟩
        · by_cases hF : pyStartsWith t.str "F" = true
          · cases hv : t.val with
            | none => exact ⟨"ValueError", by simp [linearFold, hX, hY, hF, floatVal, hv]⟩
            | some v =>
              obtain ⟨e, he⟩ := ih hmem' (nx, ny, v * uf)
              exact ⟨e, by simp [linearFold, hX, hY, hF, floatVal, hv, he]⟩
          · obtain ⟨e, he⟩ := ih hmem' (nx, ny, lf)
            exact ⟨e, by simp [linearFold, hX, hY, hF, he]⟩

/-- A malformed `X`/`Y`/`I`/`J`/`F` token makes the arc token loop raise. -/
theorem arcFold_error_of_malformed (uf : ℝ) (am : Bool) (x y : ℝ)
    (ts : List Token) (bad : Token) (hmem : bad ∈ ts)
    (hL : pyStartsWith bad.str "X" = true ∨ pyStartsWith bad.str "Y" = true ∨
      pyStartsWith bad.str "I" = true ∨ pyStartsWith bad.str "J" = true ∨
      pyStartsWith bad.str "F" = true)
    (hval : bad.val = none) :
    ∀ acc, ∃ e, arcFold uf am x y ts acc = .error e := by
  induction ts with
  | nil => cases hmem
  | cons t ts ih =>
    intro acc
    obtain ⟨nx, ny, i_off, j_off, lf, cxy⟩ := acc
    rcases List.mem_cons.mp hmem with heq | hmem'
    · subst heq
      by_cases hX : pyStartsWith bad.str "X" = true
      · exact ⟨"ValueError", by simp [arcFold, hX, floatVal, hval]⟩
      · by_cases hY : pyStartsWith bad.str "Y" = true
        · exact ⟨"ValueError", by simp [arcFold, hX, hY, floatVal, hval]⟩
        · by_cases hI : pyStartsWith bad.str "I" = true
          · exact ⟨"ValueError", by simp [arcFold, hX, hY, hI, floatVal, hval]⟩
          · by_cases hJ : pyStartsWith bad.str "J" = true
            · exact ⟨"ValueError", by simp [arcFold, hX, hY, hI, hJ, floatVal, hval]⟩
            · have hF := (((hL.resolve_left hX).resolve_left hY).resolve_left hI).resolve_left hJ
              exact ⟨"ValueError", by simp [arcFold, hX, hY, hI, hJ, hF, floatVal, hval]⟩
    · by_cases hX : pyStartsWith t.str "X" = true
      · cases hv : t.val with
        | none => exact ⟨"ValueError", by simp [arcFold, hX, floatVal, hv]⟩
        | some v =>
          obtain ⟨e, he⟩ := ih hmem'
            (if am then v * uf else x + v * uf, ny, i_off, j_off, lf,
              some (x + i_off, y + j_off))
          exact ⟨e, by simp [arcFold, hX, floatVal, hv, he]⟩
      · by_cases hY : pyStartsWith t.str "Y" = true
        · cases hv : t.val with
          | none => exact ⟨"ValueError", by simp [arcFold, hX, hY, floatVal, hv]⟩
          | some v =>
            obtain ⟨e, he⟩ := ih hmem'
              (nx, if am then v * uf else y + v * uf, i_off, j_off, lf,
                some (x + i_off, y + j_off))
            exact ⟨e, by simp [arcFold, hX, hY, floatVal, hv, he]⟩
        · by_cases hI : pyStartsWith t.str "I" = true
          · cases hv : t.val with
            | none => exact ⟨"ValueError", by simp [arcFold, hX, hY, hI, floatVal, hv]⟩
            | some v =>
              obtain ⟨e, he⟩ := ih hmem'
                (nx, ny, v * uf, j_off, lf, some (x + v * uf, y + j_off))
              exact ⟨e, by simp [arcFold, hX, hY, hI, floatVal, hv, he]⟩
          · by_cases hJ : pyStartsWith t.str "J" = true
            · cases hv : t.val with
              | none => exact ⟨"ValueError", by simp [arcFold, hX, hY, hI, hJ, floatVal, hv]⟩
              | some v =>
                obtain ⟨e, he⟩ := ih hmem'
                  (nx, ny, i_off, v * uf, lf, some (x + i_off, y + v * uf))
                exact ⟨e, by simp [arcFold, hX, hY, hI, hJ, floatVal, hv, he]⟩
            · by_cases hF : pyStartsWith t.str "F" = true
              · cases hv : t.val with
                | none =>
                  exact ⟨"ValueError", by simp [arcFold, hX, hY, hI, hJ, hF, floatVal, hv]⟩
                | some v =>
                  obtain ⟨e, he⟩ := ih hmem'
                    (nx, ny, i_off, j_off, v * uf, some (x + i_off, y + j_off))
                  exact ⟨e, by simp [arcFold, hX, hY, hI, hJ, hF, floatVal, hv, he]⟩
              · obtain ⟨e, he⟩ := ih hmem'
                  (nx, ny, i_off, j_off, lf, some (x + i_off, y + j_off))
                exact ⟨e, by simp [arcFold, hX, hY, hI, hJ, hF, he]⟩

/-- The sticky-feed loop succeeds when every `F` token parses. -/
theorem applyFeed_ok_of_parsed (uf : ℝ) (ts : List Token)
    (hall : ∀ t ∈ ts, pyStartsWith t.str "F" = true → t.val ≠ none) :
    ∀ f, ∃ f', applyFeed uf ts f = .ok f' := by
  induction ts with
  | nil => intro f; exact ⟨f, rfl⟩
  | cons t ts ih =>
    intro f
    have htail := fun u hu => hall u (List.mem_cons_of_mem _ hu)
    by_cases hF : pyStartsWith t.str "F" = true
    · cases hv : t.val with
      | none => exact absurd hv (hall t (List.mem_cons_self t ts) hF)
      | some v =>
        obtain ⟨f', hf'⟩ := ih htail (v * uf)
        exact ⟨f', by simp [applyFeed, hF, floatVal, hv, hf']⟩
    · obtain ⟨f', hf'⟩ := ih htail f
      exact ⟨f', by simp [applyFeed, hF, hf']⟩

/-- The dwell operand loop succeeds when every `S`/`P` token parses. -/
theorem dwellFold_ok_of_parsed (ts : List Token)
    (hall : ∀ t ∈ ts,
      (pyStartsWith t.str "S" = true ∨ pyStartsWith t.str "P" = true) → t.val ≠ none) :
    ∀ d0, ∃ d, dwellFold ts d0 = .ok d := by
  induction ts with
  | nil => intro d0; exact ⟨d0, rfl⟩
  | cons t ts ih =>
    intro d0
    have htail := fun u hu => hall u (List.mem_cons_of_mem _ hu)
    by_cases hS : pyStartsWith t.str "S" = true
    · cases hv : t.val with
      | none => exact absurd hv (hall t (List.mem_cons_self t ts) (Or.inl hS))
      | some v =>
        obtain ⟨d, hd⟩ := ih htail v
        exact ⟨d, by simp [dwellFold, hS, floatVal, hv, hd]⟩
    · by_cases hP : pyStartsWith t.str "P" = true
      · cases hv : t.val with
        | none => exact absurd hv (hall t (List.mem_cons_self t ts) (Or.inr hP))
        | some v =>
          obtain ⟨d, hd⟩ := ih htail (if v > 50 then v / 1000 else v)
          exact ⟨d, by simp [dwellFold, hS, hP, floatVal, hv, hd]⟩
      · obtain ⟨d, hd⟩ := ih htail d0
        exact ⟨d, by simp [dwellFold, hS, hP, hd]⟩

/-- The rapid-move token loop succeeds when every `X`/`Y` token parses. -/
theorem rapidFold_ok_of_parsed (uf : ℝ) (am : Bool) (x y : ℝ) (ts : List Token)
    (hall : ∀ t ∈ ts,
      (pyStartsWith t.str "X" = true ∨ pyStartsWith t.str "Y" = true) → t.val ≠ none) :
    ∀ acc, ∃ nx ny, rapidFold uf am x y ts acc = .ok (nx, ny) := by
  induction ts with
  | nil => intro acc; obtain ⟨nx, ny⟩ := acc; exact ⟨nx, ny, rfl⟩
  | cons t ts ih =>
    intro acc
    obtain ⟨nx, ny⟩ := acc
    have htail := fun u hu => hall u (List.mem_cons_of_mem _ hu)
    by_cases hX : pyStartsWith t.str "X" = true
    · cases hv : t.val with
      | none => exact absurd hv (hall t (List.mem_cons_self t ts) (Or.inl hX))
      | some v =>
        obtain ⟨nx', ny', hp⟩ := ih htail (if am then v * uf else x + v * uf, ny)
        exact ⟨nx', ny', by simp [rapidFold, hX, floatVal, hv, hp]⟩
    · by_cases hY : pyStartsWith t.str "Y" = true
      · cases hv : t.val with
        | none => exact absurd hv (hall t (List.mem_cons_self t ts) (Or.inr hY))
        | some v =>
          obtain ⟨nx', ny', hp⟩ := ih htail (nx, if am then v * uf else y + v * uf)
          exact ⟨nx', ny', by simp [rapidFold, hX, hY, floatVal, hv, hp]⟩
      · obtain ⟨nx', ny', hp⟩ := ih htail (nx, ny)
        exact ⟨nx', ny', by simp [rapidFold, hX, hY, hp]⟩

/-- The linear-move token loop succeeds when every `X`/`Y`/`F` token parses. -/
theorem linearFold_ok_of_parsed (uf : ℝ) (am : Bool) (x y : ℝ) (ts : List Token)
    (hall : ∀ t ∈ ts,
      (pyStartsWith t.str "X" = true ∨ pyStartsWith t.str "Y" = true ∨
        pyStartsWith t.str "F" = true) → t.val ≠ none) :
    ∀ acc, ∃ nx ny lf, linearFold uf am x y ts acc = .ok (nx, ny, lf) := by
  induction ts with
  | nil => intro acc; obtain ⟨nx, ny, lf⟩ := acc; exact ⟨nx, ny, lf, rfl⟩
  | cons t ts ih =>
    intro acc
    obtain ⟨nx, ny, lf⟩ := acc
    have htail := fun u hu => hall u (List.mem_cons_of_mem _ hu)
    by_cases hX : pyStartsWith t.str "X" = true
    · cases hv : t.val with
      | none => exact absurd hv (hall t (List.mem_cons_self t ts) (Or.inl hX))
      | some v =>
        obtain ⟨a, b, c, hp⟩ := ih htail (if am then v * uf else x + v * uf, ny, lf)
        exact ⟨a, b, c, by simp [linearFold, hX, floatVal, hv, hp]⟩
    · by_cases hY : pyStartsWith t.str "Y" = true
      · cases hv : t.val with
        | none => exact absurd hv (hall t (List.mem_cons_self t ts) (Or.inr (Or.inl hY)))
        | some v =>
          obtain ⟨a, b, c, hp⟩ := ih htail (nx, if am then v * uf else y + v * uf, lf)
          exact ⟨a, b, c, by simp [linearFold, hX, hY, floatVal, hv, hp]⟩
      · by_cases hF : pyStartsWith t.str "F" = true
        · cases hv : t.val with
          | none => exact absurd hv (hall t (List.mem_cons_self t ts) (Or.inr (Or.inr hF)))
          | some v =>
            obtain ⟨a, b, c, hp⟩ := ih htail (nx, ny, v * uf)
            exact ⟨a, b, c, by simp [linearFold, hX, hY, hF, floatVal, hv, hp]⟩
        · obtain ⟨a, b, c, hp⟩ := ih htail (nx, ny, lf)
          exact ⟨a, b, c, by simp [linearFold, hX, hY, hF, hp]⟩

/-- The arc token loop succeeds when every `X`/`Y`/`I`/`J`/`F` token parses;
with at least one token processed, the center locals come out bound. -/
theorem arcFold_ok_of_parsed (uf : ℝ) (am : Bool) (x y : ℝ) (ts : List Token)
    (hall : ∀ t ∈ ts,
      (pyStartsWith t.str "X" = true ∨ pyStartsWith t.str "Y" = true ∨
        pyStartsWith t.str "I" = true ∨ pyStartsWith t.str "J" = true ∨
        pyStartsWith t.str "F" = true) → t.val ≠ none) :
    ∀ acc : ℝ × ℝ × ℝ × ℝ × ℝ × Option (ℝ × ℝ),
      ∃ nx ny i j lf cxy, arcFold uf am x y ts acc = .ok (nx, ny, i, j, lf, cxy) ∧
        (ts = [] → cxy = acc.2.2.2.2.2) ∧
        (ts ≠ [] → ∃ cc, cxy = some cc) := by
  induction ts with
  | nil =>
    intro acc
    obtain ⟨nx, ny, i, j, lf, cxy⟩ := acc
    exact ⟨nx, ny, i, j, lf, cxy, rfl, fun _ => rfl, fun h => absurd rfl h⟩
  | cons t ts ih =>
    intro acc
    obtain ⟨nx, ny, i, j, lf, cxy⟩ := acc
    have htail := fun u hu => hall u (List.mem_cons_of_mem _ hu)
    have step : ∀ (nx' ny' i' j' lf' : ℝ),
        (∃ a b c d e cxy', arcFold uf am x y ts
            (nx', ny', i', j', lf', some (x + i', y + j')) =
            .ok (a, b, c, d, e, cxy') ∧ ∃ cc, cxy' = some cc) := by
      intro nx' ny' i' j' lf'
      obtain ⟨a, b, c, d, e, cxy', hok, h0, h1⟩ :=
        ih htail (nx', ny', i', j', lf', some (x + i', y + j'))
      refine ⟨a, b, c, d, e, cxy', hok, ?_⟩
      cases ts with
      | nil => exact ⟨(x + i', y + j'), h0 rfl⟩
      | cons u us => exact h1 (by simp)
    by_cases hX : pyStartsWith t.str "X" = true
    · cases hv : t.val with
      | none => exact absurd hv (hall t (List.mem_cons_self t ts) (Or.inl hX))
      | some v =>
        obtain ⟨a, b, c, d, e, cxy', hok, cc, hcc⟩ :=
          step (if am then v * uf else x + v * uf) ny i j lf
        exact ⟨a, b, c, d, e, cxy',
          by simp [arcFold, hX, floatVal, hv, hok],
          fun h => absurd h (by simp), fun _ => ⟨cc, hcc⟩⟩
    · by_cases hY : pyStartsWith t.str "Y" = true
      · cases hv : t.val with
        | none =>
          exact absurd hv (hall t (List.mem_cons_self t ts) (Or.inr (Or.inl hY)))
        | some v =>
          obtain ⟨a, b, c, d, e, cxy', hok, cc, hcc⟩ :=
            step nx (if am then v * uf else y + v * uf) i j lf
          exact ⟨a, b, c, d, e, cxy',
            by simp [arcFold, hX, hY, floatVal, hv, hok],
            fun h => absurd h (by simp), fun _ => ⟨cc, hcc⟩⟩
      · by_cases hI : pyStartsWith t.str "I" = true
        · cases hv : t.val with
          | none =>
            exact absurd hv (hall t (List.mem_cons_self t ts) (Or.inr (Or.inr (Or.inl hI))))
          | some v =>
            obtain ⟨a, b, c, d, e, cxy', hok, cc, hcc⟩ := step nx ny (v * uf) j lf
            exact ⟨a, b, c, d, e, cxy',
              by simp [arcFold, hX, hY, hI, floatVal, hv, hok],
              fun h => absurd h (by simp), fun _ => ⟨cc, hcc⟩⟩
        · by_cases hJ : pyStartsWith t.str "J" = true
          · cases hv : t.val with
            | none =>
              exact absurd hv (hall t (List.mem_cons_self t ts)
                (Or.inr (Or.inr (Or.inr (Or.inl hJ)))))
            | some v =>
              obtain ⟨a, b, c, d, e, cxy', hok, cc, hcc⟩ := step nx ny i (v * uf) lf
              exact ⟨a, b, c, d, e, cxy',
                by simp [arcFold, hX, hY, hI, hJ, floatVal, hv, hok],
                fun h => absurd h (by simp), fun _ => ⟨cc, hcc⟩⟩
          · by_cases hF : pyStartsWith t.str "F" = true
            · cases hv : t.val with
              | none =>
                exact absurd hv (hall t (List.mem_cons_self t ts)
                  (Or.inr (Or.inr (Or.inr (Or.inr hF)))))
              | some v =>
                obtain ⟨a, b, c, d, e, cxy', hok, cc, hcc⟩ := step nx ny i j (v * uf)
                exact ⟨a, b, c, d, e, cxy',
                  by simp [arcFold, hX, hY, hI, hJ, hF, floatVal, hv, hok],
                  fun h => absurd h (by simp), fun _ => ⟨cc, hcc⟩⟩
            · obtain ⟨a, b, c, d, e, cxy', hok, cc, hcc⟩ := step nx ny i j lf
              exact ⟨a, b, c, d, e, cxy',
                by simp [arcFold, hX, hY, hI, hJ, hF, hok],
                fun h => absurd h (by simp), fun _ => ⟨cc, hcc⟩⟩

/-- The rapid-move branch succeeds when every `X`/`Y` token parses. -/
theorem stepRapid_ok_exists (C : Cfg) (s : St) (rest : List Token)
    (hall : ∀ t ∈ rest,
      (pyStartsWith t.str "X" = true ∨ pyStartsWith t.str "Y" = true) → t.val ≠ none) :
    ∃ st', stepRapid C s rest = .ok st' := by
  obtain ⟨nx, ny, hrf⟩ := rapidFold_ok_of_parsed s.unit_factor s.absolute_mode s.x s.y
    rest hall (s.x, s.y)
  simp only [stepRapid, hrf]
  exact ⟨_, rfl⟩

/-- The linear-move branch succeeds when every `X`/`Y`/`F` token parses. -/
theorem stepLinear_ok_exists (C : Cfg) (s : St) (rest : List Token)
    (hall : ∀ t ∈ rest,
      (pyStartsWith t.str "X" = true ∨ pyStartsWith t.str "Y" = true ∨
        pyStartsWith t.str "F" = true) → t.val ≠ none) :
    ∃ st', stepLinear C s rest = .ok st' := by
  obtain ⟨nx, ny, lf, hlf⟩ := linearFold_ok_of_parsed s.unit_factor s.absolute_mode s.x s.y
    rest hall (s.x, s.y, s.feed_mm_min)
  simp only [stepLinear, hlf]
  split
  · exact ⟨_, rfl⟩
  · exact ⟨_, rfl⟩

/-- The circular-move branch succeeds when the line carries at least one
parameter token and every `X`/`Y`/`I`/`J`/`F` token parses. -/
theorem stepArc_ok_exists (C : Cfg) (s : St) (cmd : String) (rest : List Token)
    (hne : rest ≠ [])
    (hall : ∀ t ∈ rest,
      (pyStartsWith t.str "X" = true ∨ pyStartsWith t.str "Y" = true ∨
        pyStartsWith t.str "I" = true ∨ pyStartsWith t.str "J" = true ∨
        pyStartsWith t.str "F" = true) → t.val ≠ none) :
    ∃ st', stepArc C s cmd rest = .ok st' := by
  obtain ⟨nx, ny, i, j, lf, cxy, hok, h0, h1⟩ := arcFold_ok_of_parsed s.unit_factor
    s.absolute_mode s.x s.y rest hall (s.x, s.y, 0, 0, s.feed_mm_min, s.cxcy)
  obtain ⟨⟨cx, cy⟩, rfl⟩ := h1 hne
  simp only [stepArc, hok]
  split
  · exact ⟨_, rfl⟩
  · split
    · exact ⟨_, rfl⟩
    · exact ⟨_, rfl⟩

/-- A line whose malformed token the interpreter parses makes the step raise,
from every state: `S`/`P` on a dwell line, `F` on any non-mode/beam/dwell
line, `X`/`Y` on a rapid or linear move, `X`/`Y`/`I`/`J` on a circular
move. -/
theorem stepLine_error_of_parsed_malformed (C : Cfg) (st : St) (cmdTok : Token)
    (rest : List Token) (bad : Token)
    (h1 : ¬(cmdTok.str = C.inch_mode ∨ cmdTok.str = "G20"))
    (h2 : ¬(cmdTok.str = C.metric_mode ∨ cmdTok.str = "G21"))
    (h3 : ¬(cmdTok.str = C.abs_mode))
    (h4 : ¬(cmdTok.str = C.rel_mode))
    (h5 : ¬(normalize_mcode cmdTok.str = C.target_on))
    (h6 : ¬(normalize_mcode cmdTok.str = C.target_off))
    (hbad : bad ∈ rest) (hval : bad.val = none)
    (hcase :
      ((cmdTok.str = "G4" ∨ cmdTok.str = "G04") ∧
        (pyStartsWith bad.str "S" = true ∨ pyStartsWith bad.str "P" = true)) ∨
      (¬(cmdTok.str = "G4" ∨ cmdTok.str = "G04") ∧ pyStartsWith bad.str "F" = true) ∨
      ((cmdTok.str = "G0" ∨ cmdTok.str = "G00") ∧
        (pyStartsWith bad.str "X" = true ∨ pyStartsWith bad.str "Y" = true)) ∨
      ((cmdTok.str = "G1" ∨ cmdTok.str = "G01") ∧
        (pyStartsWith bad.str "X" = true ∨ pyStartsWith bad.str "Y" = true ∨
          pyStartsWith bad.str "F" = true)) ∨
      ((cmdTok.str = "G2" ∨ cmdTok.str = "G02" ∨ cmdTok.str = "G3" ∨ cmdTok.str = "G03") ∧
        (pyStartsWith bad.str "X" = true ∨ pyStartsWith bad.str "Y" = true ∨
          pyStartsWith bad.str "I" = true ∨ pyStartsWith bad.str "J" = true ∨
          pyStartsWith bad.str "F" = true))) :
    ∃ e, stepLine C st (cmdTok :: rest) = .error e := by
  rcases hcase with ⟨hdwl, hSP⟩ | ⟨hnd, hF⟩ | ⟨hmov, hXY⟩ | ⟨hmov, hXYF⟩ | ⟨hmov, hL⟩
  · obtain ⟨e, he⟩ := dwellFold_error_of_malformed rest bad hbad hSP hval 0
    exact ⟨e, by simp only [stepLine, if_neg h1, if_neg h2, if_neg h3, if_neg h4,
      if_neg h5, if_neg h6, if_pos hdwl, he]⟩
  · obtain ⟨e, he⟩ :=
      applyFeed_error_of_malformed st.unit_factor rest bad hbad hF hval st.feed_mm_min
    exact ⟨e, by simp only [stepLine, if_neg h1, if_neg h2, if_neg h3, if_neg h4,
      if_neg h5, if_neg h6, if_neg hnd, he]⟩
  · have hnd : ¬(cmdTok.str = "G4" ∨ cmdTok.str = "G04") := by
      rcases hmov with h | h <;> simp [h]
    cases hfd : applyFeed st.unit_factor rest st.feed_mm_min with
    | error e =>
      exact ⟨e, by simp only [stepLine, if_neg h1, if_neg h2, if_neg h3, if_neg h4,
        if_neg h5, if_neg h6, if_neg hnd, hfd]⟩
    | ok feed =>
      obtain ⟨e, he⟩ := rapidFold_error_of_malformed st.unit_factor st.absolute_mode
        st.x st.y rest bad hbad hXY hval (st.x, st.y)
      exact ⟨e, by simp only [stepLine, if_neg h1, if_neg h2, if_neg h3, if_neg h4,
        if_neg h5, if_neg h6, if_neg hnd, hfd, if_pos hmov, stepRapid, he]⟩
  · have hnd : ¬(cmdTok.str = "G4" ∨ cmdTok.str = "G04") := by
      rcases hmov with h | h <;> simp [h]
    have hn0 : ¬(cmdTok.str = "G0" ∨ cmdTok.str = "G00") := by
      rcases hmov with h | h <;> simp [h]
    by_cases hF : pyStartsWith bad.str "F" = true
    · obtain ⟨e, he⟩ :=
        applyFeed_error_of_malformed st.unit_factor rest bad hbad hF hval st.feed_mm_min
      exact ⟨e, by simp only [stepLine, if_neg h1, if_neg h2, if_neg h3, if_neg h4,
        if_neg h5, if_neg h6, if_neg hnd, he]⟩
    · cases hfd : applyFeed st.unit_factor rest st.feed_mm_min with
      | error e =>
        exact ⟨e, by simp only [stepLine, if_neg h1, if_neg h2, if_neg h3, if_neg h4,
          if_neg h5, if_neg h6, if_neg hnd, hfd]⟩
      | ok feed =>
        obtain ⟨e, he⟩ := linearFold_error_of_malformed st.unit_factor st.absolute_mode
          st.x st.y rest bad hbad (by tauto) hval (st.x, st.y, feed)
        exact ⟨e, by simp only [stepLine, if_neg h1, if_neg h2, if_neg h3, if_neg h4,
          if_neg h5, if_neg h6, if_neg hnd, hfd, if_neg hn0, if_pos hmov,
          stepLinear, he]⟩
  · have hnd : ¬(cmdTok.str = "G4" ∨ cmdTok.str = "G04") := by
      rcases hmov with h | h | h | h <;> simp [h]
    have hn0 : ¬(cmdTok.str = "G0" ∨ cmdTok.str = "G00") := by
      rcases hmov with h | h | h | h <;> simp [h]
    have hn1 : ¬(cmdTok.str = "G1" ∨ cmdTok.str = "G01") := by
      rcases hmov with h | h | h | h <;> simp [h]
    by_cases hF : pyStartsWith bad.str "F" = true
    · obtain ⟨e, he⟩ :=
        applyFeed_error_of_malformed st.unit_factor rest bad hbad hF hval st.feed_mm_min
      exact ⟨e, by simp only [stepLine, if_neg h1, if_neg h2, if_neg h3, if_neg h4,
        if_neg h5, if_neg h6, if_neg hnd, he]⟩
    · cases hfd : applyFeed st.unit_factor rest st.feed_mm_min with
      | error e =>
        exact ⟨e, by simp only [stepLine, if_neg h1, if_neg h2, if_neg h3, if_neg h4,
          if_neg h5, if_neg h6, if_neg hnd, hfd]⟩
      | ok feed =>
        obtain ⟨e, he⟩ := arcFold_error_of_malformed st.unit_factor st.absolute_mode
          st.x st.y rest bad hbad (by tauto) hval (st.x, st.y, 0, 0, feed, st.cxcy)
        exact ⟨e, by simp only [stepLine, if_neg h1, if_neg h2, if_neg h3, if_neg h4,
          if_neg h5, if_neg h6, if_neg hnd, hfd, if_neg hn0, if_neg hn1, if_pos hmov,
          stepArc, he]⟩

/-- C7 (amended): a malformed numeric operand is fatal for the whole run
exactly when the interpreter parses it.  Fatal: `S`/`P` tokens on dwell
lines; `F` tokens on any line not consumed by a unit-mode, positioning-mode,
beam or dwell command; `X`/`Y` tokens on rapid and linear moves;
`X`/`Y`/`I`/`J` tokens on circular moves.  Never a cause of failure: tokens
of lines consumed by mode or beam commands (such lines always succeed);
dwell lines succeed whenever their `S`/`P` operands parse; rapid, linear,
and (non-bare) circular lines succeed whenever the operands they parse
(`X`/`Y`/`F`, plus `I`/`J` for arcs) all parse; unrecognized-command lines
succeed whenever their `F` operands parse. -/
theorem C7_malformed_fatal_iff_parsed :
    (∀ (P : Params) (lines : List (List Token)) (cmdTok : Token) (rest : List Token)
        (bad : Token) (st' : St),
      (cmdTok :: rest) ∈ lines →
      ¬(cmdTok.str = P.toCfg.inch_mode ∨ cmdTok.str = "G20") →
      ¬(cmdTok.str = P.toCfg.metric_mode ∨ cmdTok.str = "G21") →
      ¬(cmdTok.str = P.toCfg.abs_mode) →
      ¬(cmdTok.str = P.toCfg.rel_mode) →
      ¬(normalize_mcode cmdTok.str = P.toCfg.target_on) →
      ¬(normalize_mcode cmdTok.str = P.toCfg.target_off) →
      bad ∈ rest → bad.val = none →
      (((cmdTok.str = "G4" ∨ cmdTok.str = "G04") ∧
          (pyStartsWith bad.str "S" = true ∨ pyStartsWith bad.str "P" = true)) ∨
       (¬(cmdTok.str = "G4" ∨ cmdTok.str = "G04") ∧ pyStartsWith bad.str "F" = true) ∨
       ((cmdTok.str = "G0" ∨ cmdTok.str = "G00") ∧
          (pyStartsWith bad.str "X" = true ∨ pyStartsWith bad.str "Y" = true)) ∨
       ((cmdTok.str = "G1" ∨ cmdTok.str = "G01") ∧
          (pyStartsWith bad.str "X" = true ∨ pyStartsWith bad.str "Y" = true ∨
            pyStartsWith bad.str "F" = true)) ∨
       ((cmdTok.str = "G2" ∨ cmdTok.str = "G02" ∨ cmdTok.str = "G3" ∨
            cmdTok.str = "G03") ∧
          (pyStartsWith bad.str "X" = true ∨ pyStartsWith bad.str "Y" = true ∨
            pyStartsWith bad.str "I" = true ∨ pyStartsWith bad.str "J" = true ∨
            pyStartsWith bad.str "F" = true))) →
      analyzeRun P lines ≠ .ok st') ∧
    (∀ (C : Cfg) (st : St) (cmdTok : Token) (rest : List Token),
      (cmdTok.str = C.inch_mode ∨ cmdTok.str = "G20" ∨ cmdTok.str = C.metric_mode ∨
        cmdTok.str = "G21" ∨ cmdTok.str = C.abs_mode ∨ cmdTok.str = C.rel_mode) →
      ∃ st', stepLine C st (cmdTok :: rest) = .ok st') ∧
    (∀ (C : Cfg) (st : St) (cmdTok : Token) (rest : List Token),
      ¬(cmdTok.str = C.inch_mode ∨ cmdTok.str = "G20") →
      ¬(cmdTok.str = C.metric_mode ∨ cmdTok.str = "G21") →
      ¬(cmdTok.str = C.abs_mode) →
      ¬(cmdTok.str = C.rel_mode) →
      (normalize_mcode cmdTok.str = C.target_on ∨
        normalize_mcode cmdTok.str = C.target_off) →
      ∃ st', stepLine C st (cmdTok :: rest) = .ok st') ∧
    (∀ (C : Cfg) (st : St) (cmdTok : Token) (rest : List Token),
      ¬(cmdTok.str = C.inch_mode ∨ cmdTok.str = "G20") →
      ¬(cmdTok.str = C.metric_mode ∨ cmdTok.str = "G21") →
      ¬(cmdTok.str = C.abs_mode) →
      ¬(cmdTok.str = C.rel_mode) →
      ¬(normalize_mcode cmdTok.str = C.target_on) →
      ¬(normalize_mcode cmdTok.str = C.target_off) →
      (cmdTok.str = "G4" ∨ cmdTok.str = "G04") →
      (∀ t ∈ rest,
        (pyStartsWith t.str "S" = true ∨ pyStartsWith t.str "P" = true) → t.val ≠ none) →
      ∃ st', stepLine C st (cmdTok :: rest) = .ok st') ∧
    (∀ (C : Cfg) (st : St) (cmdTok : Token) (rest : List Token),
      ¬(cmdTok.str = C.inch_mode ∨ cmdTok.str = "G20") →
      ¬(cmdTok.str = C.metric_mode ∨ cmdTok.str = "G21") →
      ¬(cmdTok.str = C.abs_mode) →
      ¬(cmdTok.str = C.rel_mode) →
      ¬(normalize_mcode cmdTok.str = C.target_on) →
      ¬(normalize_mcode cmdTok.str = C.target_off) →
      (cmdTok.str = "G0" ∨ cmdTok.str = "G00") →
      (∀ t ∈ rest,
        (pyStartsWith t.str "X" = true ∨ pyStartsWith t.str "Y" = true ∨
          pyStartsWith t.str "F" = true) → t.val ≠ none) →
      ∃ st', stepLine C st (cmdTok :: rest) = .ok st') ∧
    (∀ (C : Cfg) (st : St) (cmdTok : Token) (rest : List Token),
      ¬(cmdTok.str = C.inch_mode ∨ cmdTok.str = "G20") →
      ¬(cmdTok.str = C.metric_mode ∨ cmdTok.str = "G21") →
      ¬(cmdTok.str = C.abs_mode) →
      ¬(cmdTok.str = C.rel_mode) →
      ¬(normalize_mcode cmdTok.str = C.target_on) →
      ¬(normalize_mcode cmdTok.str = C.target_off) →
      (cmdTok.str = "G1" ∨ cmdTok.str = "G01") →
      (∀ t ∈ rest,
        (pyStartsWith t.str "X" = true ∨ pyStartsWith t.str "Y" = true ∨
          pyStartsWith t.str "F" = true) → t.val ≠ none) →
      ∃ st', stepLine C st (cmdTok :: rest) = .ok st') ∧
    (∀ (C : Cfg) (st : St) (cmdTok : Token) (rest : List Token),
      ¬(cmdTok.str = C.inch_mode ∨ cmdTok.str = "G20") →
      ¬(cmdTok.str = C.metric_mode ∨ cmdTok.str = "G21") →
      ¬(cmdTok.str = C.abs_mode) →
      ¬(cmdTok.str = C.rel_mode) →
      ¬(normalize_mcode cmdTok.str = C.target_on) →
      ¬(normalize_mcode cmdTok.str = C.target_off) →
      (cmdTok.str = "G2" ∨ cmdTok.str = "G02" ∨ cmdTok.str = "G3" ∨ cmdTok.str = "G03") →
      rest ≠ [] →
      (∀ t ∈ rest,
        (pyStartsWith t.str "X" = true ∨ pyStartsWith t.str "Y" = true ∨
          pyStartsWith t.str "I" = true ∨ pyStartsWith t.str "J" = true ∨
          pyStartsWith t.str "F" = true) → t.val ≠ none) →
      ∃ st', stepLine C st (cmdTok :: rest) = .ok st') ∧
    (∀ (C : Cfg) (st : St) (cmdTok : Token) (rest : List Token),
      ¬(cmdTok.str = C.inch_mode ∨ cmdTok.str = "G20") →
      ¬(cmdTok.str = C.metric_mode ∨ cmdTok.str = "G21") →
      ¬(cmdTok.str = C.abs_mode) →
      ¬(cmdTok.str = C.rel_mode) →
      ¬(normalize_mcode cmdTok.str = C.target_on) →
      ¬(normalize_mcode cmdTok.str = C.target_off) →
      ¬(cmdTok.str = "G4" ∨ cmdTok.str = "G04") →
      ¬(cmdTok.str = "G0" ∨ cmdTok.str = "G00") →
      ¬(cmdTok.str = "G1" ∨ cmdTok.str = "G01") →
      ¬(cmdTok.str = "G2" ∨ cmdTok.str = "G02" ∨ cmdTok.str = "G3" ∨ cmdTok.str = "G03") →
      (∀ t ∈ rest, pyStartsWith t.str "F" = true → t.val ≠ none) →
      ∃ st', stepLine C st (cmdTok :: rest) = .ok st') := by
  refine ⟨?_, ?_, ?_, ?_, ?_, ?_, ?_, ?_⟩
  · intro P lines cmdTok rest bad st' hmem h1 h2 h3 h4 h5 h6 hbad hval hcase
    exact runLines_no_ok_of_bad_line P.toCfg (cmdTok :: rest)
      (fun st => stepLine_error_of_parsed_malformed P.toCfg st cmdTok rest bad
        h1 h2 h3 h4 h5 h6 hbad hval hcase) lines hmem initSt st'
  · intro C st cmdTok rest h
    by_cases c1 : cmdTok.str = C.inch_mode ∨ cmdTok.str = "G20"
    · simp only [stepLine, if_pos c1]
      exact ⟨_, rfl⟩
    by_cases c2 : cmdTok.str = C.metric_mode ∨ cmdTok.str = "G21"
    · simp only [stepLine, if_neg c1, if_pos c2]
      exact ⟨_, rfl⟩
    by_cases c3 : cmdTok.str = C.abs_mode
    · simp only [stepLine, if_neg c1, if_neg c2, if_pos c3]
      exact ⟨_, rfl⟩
    by_cases c4 : cmdTok.str = C.rel_mode
    · simp only [stepLine, if_neg c1, if_neg c2, if_neg c3, if_pos c4]
      exact ⟨_, rfl⟩
    exact absurd h (by tauto)
  · intro C st cmdTok rest h1 h2 h3 h4 h
    by_cases hon : normalize_mcode cmdTok.str = C.target_on
    · simp only [stepLine, if_neg h1, if_neg h2, if_neg h3, if_neg h4, if_pos hon]
      by_cases hb : st.beam_on = true
      · exact ⟨st, if_pos hb⟩
      · exact ⟨_, if_neg hb⟩
    · have hoff := h.resolve_left hon
      simp only [stepLine, if_neg h1, if_neg h2, if_neg h3, if_neg h4, if_neg hon,
        if_pos hoff]
      by_cases hb : st.beam_on = true
      · exact ⟨_, if_pos hb⟩
      · exact ⟨st, if_neg hb⟩
  · intro C st cmdTok rest h1 h2 h3 h4 h5 h6 hdwl hall
    obtain ⟨d, hd⟩ := dwellFold_ok_of_parsed rest hall 0
    simp only [stepLine, if_neg h1, if_neg h2, if_neg h3, if_neg h4, if_neg h5, if_neg h6,
      if_pos hdwl, hd]
    exact ⟨_, rfl⟩
  · intro C st cmdTok rest h1 h2 h3 h4 h5 h6 hmov hall
    have hnd : ¬(cmdTok.str = "G4" ∨ cmdTok.str = "G04") := by
      rcases hmov with h | h <;> simp [h]
    obtain ⟨feed, hfd⟩ := applyFeed_ok_of_parsed st.unit_factor rest
      (fun t ht hF => hall t ht (Or.inr (Or.inr hF))) st.feed_mm_min
    obtain ⟨st2, hs2⟩ := stepRapid_ok_exists C { st with feed_mm_min := feed } rest
      (fun t ht hxy => hall t ht (by tauto))
    refine ⟨st2, ?_⟩
    simp only [stepLine, if_neg h1, if_neg h2, if_neg h3, if_neg h4, if_neg h5, if_neg h6,
      if_neg hnd, hfd, if_pos hmov]
    exact hs2
  · intro C st cmdTok rest h1 h2 h3 h4 h5 h6 hmov hall
    have hnd : ¬(cmdTok.str = "G4" ∨ cmdTok.str = "G04") := by
      rcases hmov with h | h <;> simp [h]
    have hn0 : ¬(cmdTok.str = "G0" ∨ cmdTok.str = "G00") := by
      rcases hmov with h | h <;> simp [h]
    obtain ⟨feed, hfd⟩ := applyFeed_ok_of_parsed st.unit_factor rest
      (fun t ht hF => hall t ht (Or.inr (Or.inr hF))) st.feed_mm_min
    obtain ⟨st2, hs2⟩ := stepLinear_ok_exists C { st with feed_mm_min := feed } rest hall
    refine ⟨st2, ?_⟩
    simp only [stepLine, if_neg h1, if_neg h2, if_neg h3, if_neg h4, if_neg h5, if_neg h6,
      if_neg hnd, hfd, if_neg hn0, if_pos hmov]
    exact hs2
  · intro C st cmdTok rest h1 h2 h3 h4 h5 h6 hmov hne hall
    have hnd : ¬(cmdTok.str = "G4" ∨ cmdTok.str = "G04") := by
      rcases hmov with h | h | h | h <;> simp [h]
    have hn0 : ¬(cmdTok.str = "G0" ∨ cmdTok.str = "G00") := by
      rcases hmov with h | h | h | h <;> simp [h]
    have hn1 : ¬(cmdTok.str = "G1" ∨ cmdTok.str = "G01") := by
      rcases hmov with h | h | h | h <;> simp [h]
    obtain ⟨feed, hfd⟩ := applyFeed_ok_of_parsed st.unit_factor rest
      (fun t ht hF => hall t ht (by tauto)) st.feed_mm_min
    obtain ⟨st2, hs2⟩ := stepArc_ok_exists C { st with feed_mm_min := feed } cmdTok.str
      rest hne hall
    refine ⟨st2, ?_⟩
    simp only [stepLine, if_neg h1, if_neg h2, if_neg h3, if_neg h4, if_neg h5, if_neg h6,
      if_neg hnd, hfd, if_neg hn0, if_neg hn1, if_pos hmov]
    exact hs2
  · intro C st cmdTok rest h1 h2 h3 h4 h5 h6 h7 h8 h9 h10 hall
    obtain ⟨feed, hfd⟩ := applyFeed_ok_of_parsed st.unit_factor rest hall st.feed_mm_min
    simp only [stepLine, if_neg h1, if_neg h2, if_neg h3, if_neg h4, if_neg h5, if_neg h6,
      if_neg h7, hfd, if_neg h8, if_neg h9, if_neg h10]
    exact ⟨_, rfl⟩

/-- Witness for C7: under default parameters, the run over the single line
`G1 X1..2` (malformed X operand on a linear move) fails, while the lines
`G90`, `M07`, `G4 S1`, `G0 X3`, `G1 X3`, `G2 X5` and `M100 F300` all succeed
from the initial state. -/
theorem C7_malformed_fatal_iff_parsed_witness :
    ([⟨"G1", some 1⟩, ⟨"X1..2", none⟩] : List Token) ∈
      [[(⟨"G1", some 1⟩ : Token), ⟨"X1..2", none⟩]] ∧
    pyStartsWith "X1..2" "X" = true ∧
    analyzeRun defaultParams [[⟨"G1", some 1⟩, ⟨"X1..2", none⟩]] ≠ .ok initSt ∧
    (∃ st', stepLine defaultParams.toCfg initSt [⟨"G90", some 90⟩] = .ok st') ∧
    (∃ st', stepLine defaultParams.toCfg initSt [⟨"M07", some 7⟩] = .ok st') ∧
    (∃ st', stepLine defaultParams.toCfg initSt
      [⟨"G4", some 4⟩, ⟨"S1", some 1⟩] = .ok st') ∧
    (∃ st', stepLine defaultParams.toCfg initSt
      [⟨"G0", some 0⟩, ⟨"X3", some 3⟩] = .ok st') ∧
    (∃ st', stepLine defaultParams.toCfg initSt
      [⟨"G1", some 1⟩, ⟨"X3", some 3⟩] = .ok st') ∧
    (∃ st', stepLine defaultParams.toCfg initSt
      [⟨"G2", some 2⟩, ⟨"X5", some 5⟩] = .ok st') ∧
    (∃ st', stepLine defaultParams.toCfg initSt
      [⟨"M100", some 100⟩, ⟨"F300", some 300⟩] = .ok st') := by
  have hsome : ∀ (s : String) (v : ℝ), ∀ t ∈ [(⟨s, some v⟩ : Token)],
      ∀ p : Prop, p → t.val ≠ none := by
    intro s v t ht p _
    rw [List.mem_singleton] at ht
    subst ht
    simp
  refine ⟨List.mem_singleton.mpr rfl, rfl, ?_, ?_, ?_, ?_, ?_, ?_, ?_, ?_⟩
  · exact C7_malformed_fatal_iff_parsed.1 defaultParams _ ⟨"G1", some 1⟩
      [⟨"X1..2", none⟩] ⟨"X1..2", none⟩ initSt (List.mem_singleton.mpr rfl)
      (by decide) (by decide) (by decide) (by decide) (by decide) (by decide)
      (List.mem_singleton.mpr rfl) rfl (by decide)
  · exact C7_malformed_fatal_iff_parsed.2.1 defaultParams.toCfg initSt
      ⟨"G90", some 90⟩ [] (by decide)
  · exact C7_malformed_fatal_iff_parsed.2.2.1 defaultParams.toCfg initSt
      ⟨"M07", some 7⟩ [] (by decide) (by decide) (by decide) (by decide) (by decide)
  · exact C7_malformed_fatal_iff_parsed.2.2.2.1 defaultParams.toCfg initSt
      ⟨"G4", some 4⟩ [⟨"S1", some 1⟩] (by decide) (by decide) (by decide) (by decide)
      (by decide) (by decide) (by decide)
      (fun t ht h => hsome "S1" 1 t ht _ h)
  · exact C7_malformed_fatal_iff_parsed.2.2.2.2.1 defaultParams.toCfg initSt
      ⟨"G0", some 0⟩ [⟨"X3", some 3⟩] (by decide) (by decide) (by decide) (by decide)
      (by decide) (by decide) (by decide)
      (fun t ht h => hsome "X3" 3 t ht _ h)
  · exact C7_malformed_fatal_iff_parsed.2.2.2.2.2.1 defaultParams.toCfg initSt
      ⟨"G1", some 1⟩ [⟨"X3", some 3⟩] (by decide) (by decide) (by decide) (by decide)
      (by decide) (by decide) (by decide)
      (fun t ht h => hsome "X3" 3 t ht _ h)
  · exact C7_malformed_fatal_iff_parsed.2.2.2.2.2.2.1 defaultParams.toCfg initSt
      ⟨"G2", some 2⟩ [⟨"X5", some 5⟩] (by decide) (by decide) (by decide) (by decide)
      (by decide) (by decide) (by decide) (List.cons_ne_nil _ _)
      (fun t ht h => hsome "X5" 5 t ht _ h)
  · exact C7_malformed_fatal_iff_parsed.2.2.2.2.2.2.2 defaultParams.toCfg initSt
      ⟨"M100", some 100⟩ [⟨"F300", some 300⟩] (by decide) (by decide) (by decide)
      (by decide) (by decide) (by decide) (by decide) (by decide) (by decide) (by decide)
      (fun t ht h => hsome "F300" 300 t ht _ h)

/-- The Motion Timing Model never returns a negative time. -/
theorem move_time_trap_nonneg (d f a : ℝ) : 0 ≤ move_time_trap d f a := by
  simp only [move_time_trap]
  split
  · exact le_refl 0
  next h =>
    push_neg at h
    obtain ⟨hd, hf, ha⟩ := h
    have ha' : (0 : ℝ) < a * 9.81 * 1000 := by positivity
    have hv : (0 : ℝ) < f / 60 := by positivity
    split
    next hcr =>
      have h1 : (0 : ℝ) ≤ d - 2 * (f / 60 * (f / 60) / (2 * (a * 9.81 * 1000))) :=
        le_of_lt (sub_pos.mpr hcr)
      have h2 : (0 : ℝ) ≤ 2 * (f / 60 / (a * 9.81 * 1000)) := by positivity
      exact add_nonneg h2 (div_nonneg h1 (le_of_lt hv))
    next =>
      have h3 : (0 : ℝ) ≤ Real.sqrt (d * (a * 9.81 * 1000)) := Real.sqrt_nonneg _
      positivity

/-- Case inversion for the rapid-move branch. -/
theorem stepRapid_ok_cases (C : Cfg) (s : St) (rest : List Token) (st' : St)
    (hok : stepRapid C s rest = Except.ok st') :
    ∃ nx ny dt, 0 ≤ dt ∧
      st' = { s with travel_time_s := s.travel_time_s + dt
                     toolpath := s.toolpath ++ [⟨"travel", (s.x, s.y), (nx, ny)⟩]
                     x := nx, y := ny } := by
  simp only [stepRapid] at hok
  split at hok
  next e heq => exact absurd hok (by simp)
  next nx ny heq =>
    exact ⟨nx, ny, _, move_time_trap_nonneg _ _ _, (Except.ok.inj hok).symm⟩

/-- Case inversion for the linear-move branch. -/
theorem stepLinear_ok_cases (C : Cfg) (s : St) (rest : List Token) (st' : St)
    (hok : stepLinear C s rest = Except.ok st') :
    ∃ nx ny,
      (∃ dc, 0 ≤ dc ∧
        st' = { s with cut_time_s := s.cut_time_s + dc
                       toolpath := s.toolpath ++ [⟨"cut", (s.x, s.y), (nx, ny)⟩]
                       x := nx, y := ny }) ∨
      (∃ dt, 0 ≤ dt ∧
        st' = { s with travel_time_s := s.travel_time_s + dt
                       toolpath := s.toolpath ++ [⟨"travel", (s.x, s.y), (nx, ny)⟩]
                       x := nx, y := ny }) := by
  simp only [stepLinear] at hok
  split at hok
  next e heq => exact absurd hok (by simp)
  next nx ny lf heq =>
    split at hok
    next hb =>
      exact ⟨nx, ny, Or.inl ⟨_, move_time_trap_nonneg _ _ _, (Except.ok.inj hok).symm⟩⟩
    next hb =>
      exact ⟨nx, ny, Or.inr ⟨_, move_time_trap_nonneg _ _ _, (Except.ok.inj hok).symm⟩⟩

/-- Case inversion for the circular-move branch. -/
theorem stepArc_ok_cases (C : Cfg) (s : St) (cmd : String) (rest : List Token) (st' : St)
    (hok : stepArc C s cmd rest = Except.ok st') :
    ∃ nx ny cc,
      st' = { s with x := nx, y := ny, cxcy := some cc } ∨
      (∃ dc tp, 0 ≤ dc ∧
        st' = { s with cut_time_s := s.cut_time_s + dc
                       toolpath := s.toolpath ++ tp
                       x := nx, y := ny, cxcy := some cc }) ∨
      (∃ dt tp, 0 ≤ dt ∧
        st' = { s with travel_time_s := s.travel_time_s + dt
                       toolpath := s.toolpath ++ tp
                       x := nx, y := ny, cxcy := some cc }) := by
  simp only [stepArc] at hok
  split at hok
  next e heq => exact absurd hok (by simp)
  next nx ny i_off j_off lf cxcy heq =>
    split at hok
    next => exact absurd hok (by simp)
    next cx cy =>
      split at hok
      next hr =>
        exact ⟨nx, ny, (cx, cy), Or.inl (Except.ok.inj hok).symm⟩
      next hr =>
        split at hok
        next hb =>
          exact ⟨nx, ny, (cx, cy), Or.inr (Or.inl
            ⟨_, _, move_time_trap_nonneg _ _ _, (Except.ok.inj hok).symm⟩)⟩
        next hb =>
          exact ⟨nx, ny, (cx, cy), Or.inr (Or.inr
            ⟨_, _, move_time_trap_nonneg _ _ _, (Except.ok.inj hok).symm⟩)⟩

/-- Case inversion for a successful interpretation step on a nonempty line:
one of the command categories fired, with the recorded state change.  The
existentially bound `dt`/`dc` increments are the (always non-negative)
motion-time contributions. -/
theorem stepLine_ok_cases (C : Cfg) (st : St) (cmdTok : Token) (rest : List Token) (st' : St)
    (hok : stepLine C st (cmdTok :: rest) = Except.ok st') :
    ((cmdTok.str = C.inch_mode ∨ cmdTok.str = "G20") ∧ st' = { st with unit_factor := 25.4 }) ∨
    ((cmdTok.str = C.metric_mode ∨ cmdTok.str = "G21") ∧ st' = { st with unit_factor := 1 }) ∨
    (cmdTok.str = C.abs_mode ∧ st' = { st with absolute_mode := true }) ∨
    (cmdTok.str = C.rel_mode ∧ st' = { st with absolute_mode := false }) ∨
    (normalize_mcode cmdTok.str = C.target_on ∧
      (st' = st ∨
       st' = { st with beam_on := true
                       pierce_time_s := st.pierce_time_s + C.pierce_time
                       lifter_time_s := st.lifter_time_s + C.lifter_time
                       pierce_count := st.pierce_count + 1
                       beam_cycles := st.beam_cycles + 1 })) ∨
    (normalize_mcode cmdTok.str = C.target_off ∧
      (st' = st ∨
       st' = { st with beam_on := false
                       lifter_time_s := st.lifter_time_s + C.lifter_time
                       beam_cycles := st.beam_cycles + 1 })) ∨
    ((cmdTok.str = "G4" ∨ cmdTok.str = "G04") ∧
      ∃ d, dwellFold rest 0 = Except.ok d ∧
        st' = { st with dwell_time_s := st.dwell_time_s + d }) ∨
    (∃ feed, applyFeed st.unit_factor rest st.feed_mm_min = Except.ok feed ∧
      (((cmdTok.str = "G0" ∨ cmdTok.str = "G00") ∧
        ∃ nx ny dt, 0 ≤ dt ∧
          st' = { st with feed_mm_min := feed
                          travel_time_s := st.travel_time_s + dt
                          toolpath := st.toolpath ++ [⟨"travel", (st.x, st.y), (nx, ny)⟩]
                          x := nx, y := ny }) ∨
       ((cmdTok.str = "G1" ∨ cmdTok.str = "G01") ∧
        ∃ nx ny,
          (∃ dc, 0 ≤ dc ∧
            st' = { st with feed_mm_min := feed
                            cut_time_s := st.cut_time_s + dc
                            toolpath := st.toolpath ++ [⟨"cut", (st.x, st.y), (nx, ny)⟩]
                            x := nx, y := ny }) ∨
          (∃ dt, 0 ≤ dt ∧
            st' = { st with feed_mm_min := feed
                            travel_time_s := st.travel_time_s + dt
                            toolpath := st.toolpath ++ [⟨"travel", (st.x, st.y), (nx, ny)⟩]
                            x := nx, y := ny })) ∨
       ((cmdTok.str = "G2" ∨ cmdTok.str = "G02" ∨ cmdTok.str = "G3" ∨ cmdTok.str = "G03") ∧
        ∃ nx ny cc,
          (st' = { st with feed_mm_min := feed, x := nx, y := ny, cxcy := some cc }) ∨
          (∃ dc tp, 0 ≤ dc ∧
            st' = { st with feed_mm_min := feed
                            cut_time_s := st.cut_time_s + dc
                            toolpath := st.toolpath ++ tp
                            x := nx, y := ny, cxcy := some cc }) ∨
          (∃ dt tp, 0 ≤ dt ∧
            st' = { st with feed_mm_min := feed
                            travel_time_s := st.travel_time_s + dt
                            toolpath := st.toolpath ++ tp
                            x := nx, y := ny, cxcy := some cc })) ∨
       st' = { st with feed_mm_min := feed })) := by
  by_cases h1 : cmdTok.str = C.inch_mode ∨ cmdTok.str = "G20"
  · simp only [stepLine, if_pos h1] at hok
    exact Or.inl ⟨h1, (Except.ok.inj hok).symm⟩
  by_cases h2 : cmdTok.str = C.metric_mode ∨ cmdTok.str = "G21"
  · simp only [stepLine, if_neg h1, if_pos h2] at hok
    exact Or.inr (Or.inl ⟨h2, (Except.ok.inj hok).symm⟩)
  by_cases h3 : cmdTok.str = C.abs_mode
  · simp only [stepLine, if_neg h1, if_neg h2, if_pos h3] at hok
    exact Or.inr (Or.inr (Or.inl ⟨h3, (Except.ok.inj hok).symm⟩))
  by_cases h4 : cmdTok.str = C.rel_mode
  · simp only [stepLine, if_neg h1, if_neg h2, if_neg h3, if_pos h4] at hok
    exact Or.inr (Or.inr (Or.inr (Or.inl ⟨h4, (Except.ok.inj hok).symm⟩)))
  by_cases h5 : normalize_mcode cmdTok.str = C.target_on
  · by_cases hb : st.beam_on = true
    · simp only [stepLine, if_neg h1, if_neg h2, if_neg h3, if_neg h4, if_pos h5,
        if_pos hb] at hok
      exact Or.inr (Or.inr (Or.inr (Or.inr (Or.inl
        ⟨h5, Or.inl (Except.ok.inj hok).symm⟩))))
    · simp only [stepLine, if_neg h1, if_neg h2, if_neg h3, if_neg h4, if_pos h5,
        if_neg hb] at hok
      exact Or.inr (Or.inr (Or.inr (Or.inr (Or.inl
        ⟨h5, Or.inr (Except.ok.inj hok).symm⟩))))
  by_cases h6 : normalize_mcode cmdTok.str = C.target_off
  · by_cases hb : st.beam_on = true
    · simp only [stepLine, if_neg h1, if_neg h2, if_neg h3, if_neg h4, if_neg h5,
        if_pos h6, if_pos hb] at hok
      exact Or.inr (Or.inr (Or.inr (Or.inr (Or.inr (Or.inl
        ⟨h6, Or.inr (Except.ok.inj hok).symm⟩)))))
    · simp only [stepLine, if_neg h1, if_neg h2, if_neg h3, if_neg h4, if_neg h5,
        if_pos h6, if_neg hb] at hok
      exact Or.inr (Or.inr (Or.inr (Or.inr (Or.inr (Or.inl
        ⟨h6, Or.inl (Except.ok.inj hok).symm⟩)))))
  by_cases h7 : cmdTok.str = "G4" ∨ cmdTok.str = "G04"
  · cases hd : dwellFold rest 0 with
    | error e =>
      simp only [stepLine, if_neg h1, if_neg h2, if_neg h3, if_neg h4, if_neg h5,
        if_neg h6, if_pos h7, hd] at hok
      exact absurd hok (by simp)
    | ok d =>
      simp only [stepLine, if_neg h1, if_neg h2, if_neg h3, if_neg h4, if_neg h5,
        if_neg h6, if_pos h7, hd] at hok
      exact Or.inr (Or.inr (Or.inr (Or.inr (Or.inr (Or.inr (Or.inl
        ⟨h7, d, rfl, (Except.ok.inj hok).symm⟩))))))
  cases hfd : applyFeed st.unit_factor rest st.feed_mm_min with
  | error e =>
    simp only [stepLine, if_neg h1, if_neg h2, if_neg h3, if_neg h4, if_neg h5,
      if_neg h6, if_neg h7, hfd] at hok
    exact absurd hok (by simp)
  | ok feed =>
    simp only [stepLine, if_neg h1, if_neg h2, if_neg h3, if_neg h4, if_neg h5,
      if_neg h6, if_neg h7, hfd] at hok
    refine Or.inr (Or.inr (Or.inr (Or.inr (Or.inr (Or.inr (Or.inr ⟨feed, rfl, ?_⟩))))))
    by_cases h8 : cmdTok.str = "G0" ∨ cmdTok.str = "G00"
    · rw [if_pos h8] at hok
      obtain ⟨nx, ny, dt, hdt, hst⟩ := stepRapid_ok_cases C _ rest st' hok
      exact Or.inl ⟨h8, nx, ny, dt, hdt, hst⟩
    by_cases h9 : cmdTok.str = "G1" ∨ cmdTok.str = "G01"
    · rw [if_neg h8, if_pos h9] at hok
      obtain ⟨nx, ny, hcase⟩ := stepLinear_ok_cases C _ rest st' hok
      exact Or.inr (Or.inl ⟨h9, nx, ny, hcase⟩)
    by_cases h10 : cmdTok.str = "G2" ∨ cmdTok.str = "G02" ∨ cmdTok.str = "G3" ∨
      cmdTok.str = "G03"
    · rw [if_neg h8, if_neg h9, if_pos h10] at hok
      obtain ⟨nx, ny, cc, hcase⟩ := stepArc_ok_cases C _ _ rest st' hok
      exact Or.inr (Or.inr (Or.inl ⟨h10, nx, ny, cc, hcase⟩))
    · rw [if_neg h8, if_neg h9, if_neg h10] at hok
      exact Or.inr (Or.inr (Or.inr (Except.ok.inj hok).symm))


/-- C5 (amended): every line not consumed by a unit-mode, positioning-mode,
beam, or dwell command resolves its `F` parameter tokens into the sticky
active feed, independently of which command the line carries (motion or
unrecognized); dwell lines are consumed before the feed update and do not
resolve `F` tokens. -/
theorem C5_feed_resolved_before_motion (C : Cfg) (st : St) (cmdTok : Token)
    (rest : List Token) (st' : St)
    (h1 : ¬(cmdTok.str = C.inch_mode ∨ cmdTok.str = "G20"))
    (h2 : ¬(cmdTok.str = C.metric_mode ∨ cmdTok.str = "G21"))
    (h3 : ¬(cmdTok.str = C.abs_mode))
    (h4 : ¬(cmdTok.str = C.rel_mode))
    (h5 : ¬(normalize_mcode cmdTok.str = C.target_on))
    (h6 : ¬(normalize_mcode cmdTok.str = C.target_off))
    (h7 : ¬(cmdTok.str = "G4" ∨ cmdTok.str = "G04"))
    (hok : stepLine C st (cmdTok :: rest) = .ok st') :
    applyFeed st.unit_factor rest st.feed_mm_min = .ok st'.feed_mm_min := by
  rcases stepLine_ok_cases C st cmdTok rest st' hok with
    ⟨h, _⟩ | ⟨h, _⟩ | ⟨h, _⟩ | ⟨h, _⟩ | ⟨h, _⟩ | ⟨h, _⟩ | ⟨h, _, _, _⟩ |
    ⟨feed, hfd, hcase⟩
  · exact absurd h h1
  · exact absurd h h2
  · exact absurd h h3
  · exact absurd h h4
  · exact absurd h h5
  · exact absurd h h6
  · exact absurd h h7
  · rcases hcase with ⟨h8, nx, ny, dt, hdt, hst⟩ | ⟨h9, nx, ny, hc⟩ |
      ⟨h10, nx, ny, cc, hc⟩ | hst
    · rw [hst]; exact hfd
    · rcases hc with ⟨dc, _, hst⟩ | ⟨dt, _, hst⟩ <;> (rw [hst]; exact hfd)
    · rcases hc with hst | ⟨dc, tp, _, hst⟩ | ⟨dt, tp, _, hst⟩ <;> (rw [hst]; exact hfd)
    · rw [hst]; exact hfd

/-- Witness for C5: the unrecognized command line `M100 F200` resolves its
`F` token into the sticky feed. -/
theorem C5_feed_resolved_before_motion_witness :
    (¬(("M100" : String) = defaultParams.toCfg.inch_mode ∨ ("M100" : String) = "G20")) ∧
    (¬(normalize_mcode "M100" = defaultParams.toCfg.target_on)) ∧
    stepLine defaultParams.toCfg initSt [⟨"M100", some 100⟩, ⟨"F200", some 200⟩] =
      .ok { initSt with feed_mm_min := 200 * 1 } ∧
    applyFeed initSt.unit_factor [⟨"F200", some 200⟩] initSt.feed_mm_min =
      .ok (({ initSt with feed_mm_min := 200 * 1 } : St).feed_mm_min) := by
  refine ⟨by decide, by decide, rfl, ?_⟩
  exact C5_feed_resolved_before_motion defaultParams.toCfg initSt ⟨"M100", some 100⟩
    [⟨"F200", some 200⟩] { initSt with feed_mm_min := 200 * 1 } (by decide) (by decide)
    (by decide) (by decide) (by decide) (by decide) (by decide) rfl

/-- Appending one segment moves the last endpoint to that segment's end. -/
theorem lastEndpoint_concat (l : List Segment) (sg : Segment) :
    lastEndpoint (l ++ [sg]) = sg.p1 := by
  simp [lastEndpoint]

/-- One interpretation step of a non-circular line preserves the invariant
that the position is the endpoint of the last emitted segment. -/
theorem stepLine_preserves_lastEndpoint (C : Cfg) (st : St) (parts : List Token) (st' : St)
    (hna : noArcCmd parts)
    (hok : stepLine C st parts = .ok st')
    (hinv : (st.x, st.y) = lastEndpoint st.toolpath) :
    (st'.x, st'.y) = lastEndpoint st'.toolpath := by
  cases parts with
  | nil =>
    simp only [stepLine] at hok
    rw [← Except.ok.inj hok]
    exact hinv
  | cons cmdTok rest =>
    rcases stepLine_ok_cases C st cmdTok rest st' hok with
      ⟨h, hst⟩ | ⟨h, hst⟩ | ⟨h, hst⟩ | ⟨h, hst⟩ | ⟨h, hsplit⟩ | ⟨h, hsplit⟩ |
      ⟨h, d, hd, hst⟩ | ⟨feed, hfd, hcase⟩
    · rw [hst]; exact hinv
    · rw [hst]; exact hinv
    · rw [hst]; exact hinv
    · rw [hst]; exact hinv
    · rcases hsplit with hst | hst <;> (rw [hst]; exact hinv)
    · rcases hsplit with hst | hst <;> (rw [hst]; exact hinv)
    · rw [hst]; exact hinv
    · rcases hcase with ⟨h8, nx, ny, dt, hdt, hst⟩ | ⟨h9, nx, ny, hc⟩ |
        ⟨h10, nx, ny, cc, hc⟩ | hst
      · rw [hst]; simp [lastEndpoint_concat]
      · rcases hc with ⟨dc, _, hst⟩ | ⟨dt, _, hst⟩ <;> (rw [hst]; simp [lastEndpoint_concat])
      · exact absurd h10 hna
      · rw [hst]; exact hinv

/-- Interpretation of a program without circular lines preserves the
position/last-segment invariant. -/
theorem runLines_preserves_lastEndpoint (C : Cfg) :
    ∀ (lines : List (List Token)) (st st' : St),
      (∀ l ∈ lines, noArcCmd l) →
      (st.x, st.y) = lastEndpoint st.toolpath →
      runLines C st lines = .ok st' →
      (st'.x, st'.y) = lastEndpoint st'.toolpath := by
  intro lines
  induction lines with
  | nil =>
    intro st st' _ hinv hok
    simp only [runLines] at hok
    rw [← Except.ok.inj hok]
    exact hinv
  | cons hd tl ih =>
    intro st st' hna hinv hok
    simp only [runLines] at hok
    cases hstep : stepLine C st hd with
    | error e => rw [hstep] at hok; exact absurd hok (by simp)
    | ok st1 =>
      rw [hstep] at hok
      exact ih st1 st' (fun l hl => hna l (List.mem_cons_of_mem _ hl))
        (stepLine_preserves_lastEndpoint C st hd st1 (hna hd (List.mem_cons_self hd tl))
          hstep hinv) hok

/-- C2 counterexample: a degenerate arc (`G2 X5` with no offsets) updates the
position to `(5, 0)` while emitting no segment, so the position no longer
equals the endpoint of the last emitted segment (the origin default). -/
theorem C2_position_invariant_cx :
    analyzeRun defaultParams [[⟨"G2", some 2⟩, ⟨"X5", some 5⟩]] =
      .ok { initSt with x := 5 * 1, cxcy := some (0 + 0, 0 + 0) } ∧
    ¬((({ initSt with x := 5 * 1, cxcy := some (0 + 0, 0 + 0) } : St).x,
       ({ initSt with x := 5 * 1, cxcy := some (0 + 0, 0 + 0) } : St).y) =
        lastEndpoint ({ initSt with x := 5 * 1, cxcy := some (0 + 0, 0 + 0) } : St).toolpath) := by
  constructor
  · show runLines _ _ _ = _
    simp only [runLines, stepLine, stepArc, arcFold, applyFeed, floatVal, defaultCfg_eq]
    simp only [show normalize_mcode "G2" = "G2" from rfl,
      show pyStartsWith "X5" "F" = false from rfl,
      show pyStartsWith "X5" "X" = true from rfl]
    simp +decide [initSt]
    norm_num [hypot]
  · simp only [lastEndpoint, initSt]
    norm_num [Prod.ext_iff]

/-- C2 (amended): after each interpreted line of a program containing no
circular-move lines, the machine position equals the endpoint of the last
emitted segment, or the origin if none was emitted; circular moves can break
the invariant (a degenerate arc updates the position but emits nothing). -/
theorem C2_position_invariant_no_arcs (P : Params) (lines pre suf : List (List Token))
    (st' : St)
    (hsplit : lines = pre ++ suf)
    (hna : ∀ l ∈ lines, noArcCmd l)
    (hok : runLines P.toCfg initSt pre = .ok st') :
    (st'.x, st'.y) = lastEndpoint st'.toolpath := by
  refine runLines_preserves_lastEndpoint P.toCfg pre initSt st' ?_ ?_ hok
  · intro l hl
    exact hna l (hsplit ▸ List.mem_append_left suf hl)
  · simp [initSt, lastEndpoint]

/-- Witness for C2: the one-line program `G0 X3` under default parameters. -/
theorem C2_position_invariant_no_arcs_witness :
    ([[(⟨"G0", some 0⟩ : Token), ⟨"X3", some 3⟩]] : List (List Token)) =
      [[⟨"G0", some 0⟩, ⟨"X3", some 3⟩]] ++ [] ∧
    (∀ l ∈ ([[(⟨"G0", some 0⟩ : Token), ⟨"X3", some 3⟩]] : List (List Token)), noArcCmd l) ∧
    runLines defaultParams.toCfg initSt [[⟨"G0", some 0⟩, ⟨"X3", some 3⟩]] =
      .ok { initSt with
            x := 3 * 1
            travel_time_s := 0 + move_time_trap (hypot (3 * 1 - 0) (0 - 0))
              defaultParams.toCfg.default_rapid_mm_min defaultParams.toCfg.rapid_accel_g
            toolpath := [⟨"travel", (0, 0), (3 * 1, 0)⟩] } ∧
    (({ initSt with
        x := 3 * 1
        travel_time_s := 0 + move_time_trap (hypot (3 * 1 - 0) (0 - 0))
          defaultParams.toCfg.default_rapid_mm_min defaultParams.toCfg.rapid_accel_g
        toolpath := [⟨"travel", (0, 0), (3 * 1, 0)⟩] } : St).x,
     ({ initSt with
        x := 3 * 1
        travel_time_s := 0 + move_time_trap (hypot (3 * 1 - 0) (0 - 0))
          defaultParams.toCfg.default_rapid_mm_min defaultParams.toCfg.rapid_accel_g
        toolpath := [⟨"travel", (0, 0), (3 * 1, 0)⟩] } : St).y) =
      lastEndpoint ({ initSt with
        x := 3 * 1
        travel_time_s := 0 + move_time_trap (hypot (3 * 1 - 0) (0 - 0))
          defaultParams.toCfg.default_rapid_mm_min defaultParams.toCfg.rapid_accel_g
        toolpath := [⟨"travel", (0, 0), (3 * 1, 0)⟩] } : St).toolpath := by
  refine ⟨rfl, ?_, rfl, ?_⟩
  · intro l hl
    rw [List.mem_singleton] at hl
    subst hl
    simp only [noArcCmd]
    decide
  · exact C2_position_invariant_no_arcs defaultParams
      [[⟨"G0", some 0⟩, ⟨"X3", some 3⟩]] [[⟨"G0", some 0⟩, ⟨"X3", some 3⟩]] []
      { initSt with
        x := 3 * 1
        travel_time_s := 0 + move_time_trap (hypot (3 * 1 - 0) (0 - 0))
          defaultParams.toCfg.default_rapid_mm_min defaultParams.toCfg.rapid_accel_g
        toolpath := [⟨"travel", (0, 0), (3 * 1, 0)⟩] }
      rfl
      (by
        intro l hl
        rw [List.mem_singleton] at hl
        subst hl
        simp only [noArcCmd]
        decide) rfl


/-- The dwell operand loop returns a non-negative value when started from a
non-negative one and every `S`/`P` operand is non-negative. -/
theorem dwellFold_nonneg (ts : List Token) :
    ∀ d0 : ℝ, 0 ≤ d0 →
      (∀ u ∈ ts, (pyStartsWith u.str "S" = true ∨ pyStartsWith u.str "P" = true) →
        ∀ v, u.val = some v → 0 ≤ v) →
      ∀ d, dwellFold ts d0 = .ok d → 0 ≤ d := by
  induction ts with
  | nil =>
    intro d0 h0 _ d hd
    simp only [dwellFold] at hd
    rw [← Except.ok.inj hd]
    exact h0
  | cons t ts ih =>
    intro d0 h0 hall d hd
    have htail : ∀ u ∈ ts, (pyStartsWith u.str "S" = true ∨ pyStartsWith u.str "P" = true) →
        ∀ v, u.val = some v → 0 ≤ v :=
      fun u hu => hall u (List.mem_cons_of_mem _ hu)
    simp only [dwellFold] at hd
    by_cases hS : pyStartsWith t.str "S" = true
    · rw [if_pos hS] at hd
      cases hv : t.val with
      | none => simp only [floatVal, hv] at hd; exact absurd hd (by simp)
      | some v =>
        simp only [floatVal, hv] at hd
        exact ih v (hall t (List.mem_cons_self t ts) (Or.inl hS) v hv) htail d hd
    · by_cases hP : pyStartsWith t.str "P" = true
      · rw [if_neg hS, if_pos hP] at hd
        cases hv : t.val with
        | none => simp only [floatVal, hv] at hd; exact absurd hd (by simp)
        | some v =>
          simp only [floatVal, hv] at hd
          have hv0 : 0 ≤ v := hall t (List.mem_cons_self t ts) (Or.inr hP) v hv
          have : 0 ≤ if v > 50 then v / 1000 else v := by
            split
            · positivity
            · exact hv0
          exact ih _ this htail d hd
      · rw [if_neg hS, if_neg hP] at hd
        exact ih d0 h0 htail d hd

/-- One interpretation step never decreases the cut, travel, pierce or lifter
accumulators or the two counters, for every line whatsoever, given
non-negative pierce/lifter dwell parameters. -/
theorem stepLine_mono_six (C : Cfg) (st : St) (parts : List Token) (st' : St)
    (hp : 0 ≤ C.pierce_time) (hl : 0 ≤ C.lifter_time)
    (hok : stepLine C st parts = .ok st') :
    st.cut_time_s ≤ st'.cut_time_s ∧ st.travel_time_s ≤ st'.travel_time_s ∧
    st.pierce_time_s ≤ st'.pierce_time_s ∧ st.lifter_time_s ≤ st'.lifter_time_s ∧
    st.pierce_count ≤ st'.pierce_count ∧ st.beam_cycles ≤ st'.beam_cycles := by
  cases parts with
  | nil =>
    simp only [stepLine] at hok
    rw [← Except.ok.inj hok]
    exact ⟨le_rfl, le_rfl, le_rfl, le_rfl, le_rfl, le_rfl⟩
  | cons cmdTok rest =>
    rcases stepLine_ok_cases C st cmdTok rest st' hok with
      ⟨h, hst⟩ | ⟨h, hst⟩ | ⟨h, hst⟩ | ⟨h, hst⟩ | ⟨h, hsplit⟩ | ⟨h, hsplit⟩ |
      ⟨h, d, hd, hst⟩ | ⟨feed, hfd, hcase⟩
    · rw [hst]; exact ⟨le_rfl, le_rfl, le_rfl, le_rfl, le_rfl, le_rfl⟩
    · rw [hst]; exact ⟨le_rfl, le_rfl, le_rfl, le_rfl, le_rfl, le_rfl⟩
    · rw [hst]; exact ⟨le_rfl, le_rfl, le_rfl, le_rfl, le_rfl, le_rfl⟩
    · rw [hst]; exact ⟨le_rfl, le_rfl, le_rfl, le_rfl, le_rfl, le_rfl⟩
    · rcases hsplit with hst | hst
      · rw [hst]; exact ⟨le_rfl, le_rfl, le_rfl, le_rfl, le_rfl, le_rfl⟩
      · rw [hst]
        exact ⟨le_rfl, le_rfl, le_add_of_nonneg_right hp,
          le_add_of_nonneg_right hl, Nat.le_succ _, Nat.le_succ _⟩
    · rcases hsplit with hst | hst
      · rw [hst]; exact ⟨le_rfl, le_rfl, le_rfl, le_rfl, le_rfl, le_rfl⟩
      · rw [hst]
        exact ⟨le_rfl, le_rfl, le_rfl, le_add_of_nonneg_right hl, le_rfl, Nat.le_succ _⟩
    · rw [hst]; exact ⟨le_rfl, le_rfl, le_rfl, le_rfl, le_rfl, le_rfl⟩
    · rcases hcase with ⟨h8, nx, ny, dt, hdt, hst⟩ | ⟨h9, nx, ny, hc⟩ |
        ⟨h10, nx, ny, cc, hc⟩ | hst
      · rw [hst]
        exact ⟨le_rfl, le_add_of_nonneg_right hdt, le_rfl, le_rfl, le_rfl, le_rfl⟩
      · rcases hc with ⟨dc, hdc, hst⟩ | ⟨dt, hdt, hst⟩
        · rw [hst]
          exact ⟨le_add_of_nonneg_right hdc, le_rfl, le_rfl, le_rfl, le_rfl, le_rfl⟩
        · rw [hst]
          exact ⟨le_rfl, le_add_of_nonneg_right hdt, le_rfl, le_rfl, le_rfl, le_rfl⟩
      · rcases hc with hst | ⟨dc, tp, hdc, hst⟩ | ⟨dt, tp, hdt, hst⟩
        · rw [hst]; exact ⟨le_rfl, le_rfl, le_rfl, le_rfl, le_rfl, le_rfl⟩
        · rw [hst]
          exact ⟨le_add_of_nonneg_right hdc, le_rfl, le_rfl, le_rfl, le_rfl, le_rfl⟩
        · rw [hst]
          exact ⟨le_rfl, le_add_of_nonneg_right hdt, le_rfl, le_rfl, le_rfl, le_rfl⟩
      · rw [hst]; exact ⟨le_rfl, le_rfl, le_rfl, le_rfl, le_rfl, le_rfl⟩

/-- One interpretation step never decreases the dwell accumulator, provided
the line's `S`/`P` dwell operands (if it is a dwell line) are non-negative. -/
theorem stepLine_dwell_mono (C : Cfg) (st : St) (parts : List Token) (st' : St)
    (hdw : DwellNonnegLine parts)
    (hok : stepLine C st parts = .ok st') :
    st.dwell_time_s ≤ st'.dwell_time_s := by
  cases parts with
  | nil =>
    simp only [stepLine] at hok
    rw [← Except.ok.inj hok]
  | cons cmdTok rest =>
    rcases stepLine_ok_cases C st cmdTok rest st' hok with
      ⟨h, hst⟩ | ⟨h, hst⟩ | ⟨h, hst⟩ | ⟨h, hst⟩ | ⟨h, hsplit⟩ | ⟨h, hsplit⟩ |
      ⟨h, d, hd, hst⟩ | ⟨feed, hfd, hcase⟩
    · rw [hst]
    · rw [hst]
    · rw [hst]
    · rw [hst]
    · rcases hsplit with hst | hst <;> rw [hst]
    · rcases hsplit with hst | hst <;> rw [hst]
    · have hd0 : 0 ≤ d := dwellFold_nonneg rest 0 le_rfl (hdw h) d hd
      rw [hst]
      exact le_add_of_nonneg_right hd0
    · rcases hcase with ⟨h8, nx, ny, dt, hdt, hst⟩ | ⟨h9, nx, ny, hc⟩ |
        ⟨h10, nx, ny, cc, hc⟩ | hst
      · rw [hst]
      · rcases hc with ⟨dc, hdc, hst⟩ | ⟨dt, hdt, hst⟩ <;> rw [hst]
      · rcases hc with hst | ⟨dc, tp, hdc, hst⟩ | ⟨dt, tp, hdt, hst⟩ <;> rw [hst]
      · rw [hst]

/-- The cut, travel, pierce and lifter accumulators and both counters never
decrease across a whole run, for every program. -/
theorem runLines_mono_six (C : Cfg) (hp : 0 ≤ C.pierce_time) (hl : 0 ≤ C.lifter_time) :
    ∀ (lines : List (List Token)) (st st' : St),
      runLines C st lines = .ok st' →
      st.cut_time_s ≤ st'.cut_time_s ∧ st.travel_time_s ≤ st'.travel_time_s ∧
      st.pierce_time_s ≤ st'.pierce_time_s ∧ st.lifter_time_s ≤ st'.lifter_time_s ∧
      st.pierce_count ≤ st'.pierce_count ∧ st.beam_cycles ≤ st'.beam_cycles := by
  intro lines
  induction lines with
  | nil =>
    intro st st' hok
    simp only [runLines] at hok
    rw [← Except.ok.inj hok]
    exact ⟨le_rfl, le_rfl, le_rfl, le_rfl, le_rfl, le_rfl⟩
  | cons hd tl ih =>
    intro st st' hok
    simp only [runLines] at hok
    cases hstep : stepLine C st hd with
    | error e => rw [hstep] at hok; exact absurd hok (by simp)
    | ok st1 =>
      rw [hstep] at hok
      have m1 := stepLine_mono_six C st hd st1 hp hl hstep
      have m2 := ih st1 st' hok
      exact ⟨le_trans m1.1 m2.1, le_trans m1.2.1 m2.2.1, le_trans m1.2.2.1 m2.2.2.1,
        le_trans m1.2.2.2.1 m2.2.2.2.1, le_trans m1.2.2.2.2.1 m2.2.2.2.2.1,
        le_trans m1.2.2.2.2.2 m2.2.2.2.2.2⟩

/-- The dwell accumulator never decreases across a run whose dwell lines carry
only non-negative `S`/`P` operands. -/
theorem runLines_dwell_mono (C : Cfg) :
    ∀ (lines : List (List Token)) (st st' : St),
      (∀ l ∈ lines, DwellNonnegLine l) →
      runLines C st lines = .ok st' →
      st.dwell_time_s ≤ st'.dwell_time_s := by
  intro lines
  induction lines with
  | nil =>
    intro st st' _ hok
    simp only [runLines] at hok
    rw [← Except.ok.inj hok]
  | cons hd tl ih =>
    intro st st' hdw hok
    simp only [runLines] at hok
    cases hstep : stepLine C st hd with
    | error e => rw [hstep] at hok; exact absurd hok (by simp)
    | ok st1 =>
      rw [hstep] at hok
      exact le_trans
        (stepLine_dwell_mono C st hd st1 (hdw hd (List.mem_cons_self hd tl)) hstep)
        (ih st1 st' (fun l hl2 => hdw l (List.mem_cons_of_mem _ hl2)) hok)

/-- C10 counterexample: with the (positive) default ParameterSet, the dwell
line `G4 S-5` decreases the dwell accumulator from `0` to `-5`, so the
accumulators are not non-decreasing and the dwell total is negative. -/
theorem C10_negative_dwell_cx :
    PosParams defaultParams ∧
    analyzeRun defaultParams [[⟨"G4", some 4⟩, ⟨"S-5", some (-5)⟩]] =
      .ok { initSt with dwell_time_s := 0 + -5 } ∧
    ({ initSt with dwell_time_s := 0 + -5 } : St).dwell_time_s < initSt.dwell_time_s ∧
    ({ initSt with dwell_time_s := 0 + -5 } : St).dwell_time_s < 0 := by
  refine ⟨?_, rfl, ?_, ?_⟩
  · refine ⟨by norm_num [defaultParams], by norm_num [defaultParams],
      by norm_num [defaultParams], by norm_num [defaultParams],
      by norm_num [defaultParams], by norm_num [defaultParams]⟩
  · norm_num [initSt]
  · norm_num [initSt]

/-- C10 (amended): with a positive ParameterSet the cut, travel, pierce and
lifter accumulators and both counters are non-decreasing across every
interpreted line of every program, unconditionally; the dwell accumulator is
non-decreasing across every line whose `S`/`P` dwell operands are
non-negative.  Hence after any run the cut, travel, pierce and lifter totals
are non-negative unconditionally, and the dwell total is non-negative when no
dwell line carries a negative operand. -/
theorem C10_accumulators_monotone :
    (∀ (P : Params) (st : St) (parts : List Token) (st' : St),
      PosParams P → stepLine P.toCfg st parts = .ok st' →
        st.cut_time_s ≤ st'.cut_time_s ∧ st.travel_time_s ≤ st'.travel_time_s ∧
        st.pierce_time_s ≤ st'.pierce_time_s ∧ st.lifter_time_s ≤ st'.lifter_time_s ∧
        st.pierce_count ≤ st'.pierce_count ∧ st.beam_cycles ≤ st'.beam_cycles) ∧
    (∀ (P : Params) (st : St) (parts : List Token) (st' : St),
      DwellNonnegLine parts → stepLine P.toCfg st parts = .ok st' →
        st.dwell_time_s ≤ st'.dwell_time_s) ∧
    (∀ (P : Params) (lines : List (List Token)) (st' : St),
      PosParams P → analyzeRun P lines = .ok st' →
        0 ≤ st'.cut_time_s ∧ 0 ≤ st'.travel_time_s ∧ 0 ≤ st'.pierce_time_s ∧
        0 ≤ st'.lifter_time_s) ∧
    (∀ (P : Params) (lines : List (List Token)) (st' : St),
      NonnegDwellOps lines → analyzeRun P lines = .ok st' →
        0 ≤ st'.dwell_time_s) := by
  refine ⟨?_, ?_, ?_, ?_⟩
  · intro P st parts st' hpos hok
    exact stepLine_mono_six P.toCfg st parts st' (le_of_lt hpos.2.2.1)
      (le_of_lt hpos.2.2.2.1) hok
  · intro P st parts st' hdw hok
    exact stepLine_dwell_mono P.toCfg st parts st' hdw hok
  · intro P lines st' hpos hok
    have h := runLines_mono_six P.toCfg (le_of_lt hpos.2.2.1) (le_of_lt hpos.2.2.2.1)
      lines initSt st' hok
    exact ⟨h.1, h.2.1, h.2.2.1, h.2.2.2.1⟩
  · intro P lines st' hdw hok
    exact runLines_dwell_mono P.toCfg lines initSt st' hdw hok

/-- Witness for C10: an accepted beam-on line `M07` (which adds the pierce
and lifter dwells and bumps both counters) and the dwell line `G4 S1` (which
adds one second of dwell), each as a single step and as a one-line run under
default parameters. -/
theorem C10_accumulators_monotone_witness :
    PosParams defaultParams ∧
    DwellNonnegLine [⟨"G4", some 4⟩, ⟨"S1", some 1⟩] ∧
    NonnegDwellOps [[⟨"G4", some 4⟩, ⟨"S1", some 1⟩]] ∧
    stepLine defaultParams.toCfg initSt [⟨"M07", some 7⟩] =
      .ok { initSt with
            beam_on := true
            pierce_time_s := initSt.pierce_time_s + defaultParams.toCfg.pierce_time
            lifter_time_s := initSt.lifter_time_s + defaultParams.toCfg.lifter_time
            pierce_count := initSt.pierce_count + 1
            beam_cycles := initSt.beam_cycles + 1 } ∧
    stepLine defaultParams.toCfg initSt [⟨"G4", some 4⟩, ⟨"S1", some 1⟩] =
      .ok { initSt with dwell_time_s := 0 + 1 } ∧
    (initSt.cut_time_s ≤ ({ initSt with
            beam_on := true
            pierce_time_s := initSt.pierce_time_s + defaultParams.toCfg.pierce_time
            lifter_time_s := initSt.lifter_time_s + defaultParams.toCfg.lifter_time
            pierce_count := initSt.pierce_count + 1
            beam_cycles := initSt.beam_cycles + 1 } : St).cut_time_s ∧
      initSt.travel_time_s ≤ ({ initSt with
            beam_on := true
            pierce_time_s := initSt.pierce_time_s + defaultParams.toCfg.pierce_time
            lifter_time_s := initSt.lifter_time_s + defaultParams.toCfg.lifter_time
            pierce_count := initSt.pierce_count + 1
            beam_cycles := initSt.beam_cycles + 1 } : St).travel_time_s ∧
      initSt.pierce_time_s ≤ ({ initSt with
            beam_on := true
            pierce_time_s := initSt.pierce_time_s + defaultParams.toCfg.pierce_time
            lifter_time_s := initSt.lifter_time_s + defaultParams.toCfg.lifter_time
            pierce_count := initSt.pierce_count + 1
            beam_cycles := initSt.beam_cycles + 1 } : St).pierce_time_s ∧
      initSt.lifter_time_s ≤ ({ initSt with
            beam_on := true
            pierce_time_s := initSt.pierce_time_s + defaultParams.toCfg.pierce_time
            lifter_time_s := initSt.lifter_time_s + defaultParams.toCfg.lifter_time
            pierce_count := initSt.pierce_count + 1
            beam_cycles := initSt.beam_cycles + 1 } : St).lifter_time_s ∧
      initSt.pierce_count ≤ ({ initSt with
            beam_on := true
            pierce_time_s := initSt.pierce_time_s + defaultParams.toCfg.pierce_time
            lifter_time_s := initSt.lifter_time_s + defaultParams.toCfg.lifter_time
            pierce_count := initSt.pierce_count + 1
            beam_cycles := initSt.beam_cycles + 1 } : St).pierce_count ∧
      initSt.beam_cycles ≤ ({ initSt with
            beam_on := true
            pierce_time_s := initSt.pierce_time_s + defaultParams.toCfg.pierce_time
            lifter_time_s := initSt.lifter_time_s + defaultParams.toCfg.lifter_time
            pierce_count := initSt.pierce_count + 1
            beam_cycles := initSt.beam_cycles + 1 } : St).beam_cycles) ∧
    initSt.dwell_time_s ≤ ({ initSt with dwell_time_s := 0 + 1 } : St).dwell_time_s ∧
    (0 ≤ ({ initSt with dwell_time_s := 0 + 1 } : St).dwell_time_s) := by
  have hpos : PosParams defaultParams :=
    ⟨by norm_num [defaultParams], by norm_num [defaultParams], by norm_num [defaultParams],
     by norm_num [defaultParams], by norm_num [defaultParams], by norm_num [defaultParams]⟩
  have hdw : DwellNonnegLine [⟨"G4", some 4⟩, ⟨"S1", some 1⟩] := by
    simp only [DwellNonnegLine]
    intro _ u hu _ v hv
    rw [List.mem_singleton] at hu
    subst hu
    simp only [Option.some.injEq] at hv
    rw [← hv]
    norm_num
  have hnd : NonnegDwellOps [[⟨"G4", some 4⟩, ⟨"S1", some 1⟩]] := by
    intro l hl
    rw [List.mem_singleton] at hl
    subst hl
    exact hdw
  refine ⟨hpos, hdw, hnd, rfl, rfl, ?_, ?_, ?_⟩
  · exact C10_accumulators_monotone.1 defaultParams initSt [⟨"M07", some 7⟩] _ hpos rfl
  · exact C10_accumulators_monotone.2.1 defaultParams initSt
      [⟨"G4", some 4⟩, ⟨"S1", some 1⟩] _ hdw rfl
  · exact C10_accumulators_monotone.2.2.2 defaultParams
      [[⟨"G4", some 4⟩, ⟨"S1", some 1⟩]] _ hnd rfl

/-- The arc emission loop emits exactly one segment per loop index. -/
theorem emitArcFrom_length (kind : String) (cx cy r a1 delta : ℝ) (steps : ℕ) :
    ∀ (fuel sIdx : ℕ) (p : ℝ × ℝ),
      (emitArcFrom kind cx cy r a1 delta steps p sIdx fuel).length = fuel := by
  intro fuel
  induction fuel with
  | zero => intro sIdx p; simp [emitArcFrom]
  | succ n ih => intro sIdx p; simp [emitArcFrom, ih]

/-- Each emitted arc segment ends at the circle point of its loop index. -/
theorem emitArcFrom_p1 (kind : String) (cx cy r a1 delta : ℝ) (steps : ℕ) :
    ∀ (fuel sIdx : ℕ) (p : ℝ × ℝ) (k : ℕ), k < fuel →
      ((emitArcFrom kind cx cy r a1 delta steps p sIdx fuel)[k]?).map Segment.p1 =
        some (arcPoint cx cy r a1 delta steps (sIdx + k)) := by
  intro fuel
  induction fuel with
  | zero => intro sIdx p k hk; exact absurd hk (by omega)
  | succ n ih =>
    intro sIdx p k hk
    cases k with
    | zero => simp [emitArcFrom]
    | succ k' =>
      have hk' : k' < n := by omega
      have h := ih (sIdx + 1) (arcPoint cx cy r a1 delta steps sIdx) k' hk'
      rw [show sIdx + 1 + k' = sIdx + (k' + 1) from by omega] at h
      simp only [emitArcFrom, List.getElem?_cons_succ]
      exact h

/-- The first emitted arc segment starts at the chained start point, and each
later segment starts at the circle point of the previous loop index. -/
theorem emitArcFrom_p0 (kind : String) (cx cy r a1 delta : ℝ) (steps : ℕ) :
    ∀ (fuel sIdx : ℕ) (p : ℝ × ℝ),
      (0 < fuel →
        ((emitArcFrom kind cx cy r a1 delta steps p sIdx fuel)[0]?).map Segment.p0 =
          some p) ∧
      (∀ k, k + 1 < fuel →
        ((emitArcFrom kind cx cy r a1 delta steps p sIdx fuel)[k + 1]?).map Segment.p0 =
          some (arcPoint cx cy r a1 delta steps (sIdx + k))) := by
  intro fuel
  induction fuel with
  | zero =>
    intro sIdx p
    exact ⟨fun h => absurd h (by omega), fun k hk => absurd hk (by omega)⟩
  | succ n ih =>
    intro sIdx p
    constructor
    · intro _
      simp [emitArcFrom]
    · intro k hk
      simp only [emitArcFrom, List.getElem?_cons_succ]
      cases k with
      | zero =>
        have h0 := (ih (sIdx + 1) (arcPoint cx cy r a1 delta steps sIdx)).1 (by omega)
        rw [h0]
        simp
      | succ k' =>
        have h := (ih (sIdx + 1) (arcPoint cx cy r a1 delta steps sIdx)).2 k' (by omega)
        rw [show sIdx + 1 + k' = sIdx + (k' + 1) from by omega] at h
        exact h

/-- On non-negative input Python truncation is the floor. -/
theorem pyIntTrunc_of_nonneg (v : ℝ) (h : 0 ≤ v) : pyIntTrunc v = ⌊v⌋ := if_pos h

/-- C9 (amended): for a circular move with resolved delta, the number of
emitted segments is `max(40, int(|delta| * 80))` - the floor (truncation),
not the rounding, of `|delta| * 80` - and the segments trace the arc at equal
angular increments: segment `k` ends at the circle point of angle
`a1 + delta * (k+1)/steps`, the first segment starts at the chained start
point, and segment `j+1` starts at the circle point of index `j+1`. -/
theorem C9_arc_discretization (kind : String) (cx cy r a1 delta : ℝ) (p0 : ℝ × ℝ) (k : ℕ)
    (hk : k < arcSteps delta) :
    (emitArcList kind cx cy r a1 delta (arcSteps delta) p0).length =
      (max 40 ⌊|delta| * 80⌋).toNat ∧
    ((emitArcList kind cx cy r a1 delta (arcSteps delta) p0)[k]?).map Segment.p1 =
      some (arcPoint cx cy r a1 delta (arcSteps delta) (k + 1)) ∧
    ((emitArcList kind cx cy r a1 delta (arcSteps delta) p0)[0]?).map Segment.p0 =
      some p0 ∧
    (∀ j, j + 1 < arcSteps delta →
      ((emitArcList kind cx cy r a1 delta (arcSteps delta) p0)[j + 1]?).map Segment.p0 =
        some (arcPoint cx cy r a1 delta (arcSteps delta) (j + 1))) := by
  have hpos : (0 : ℝ) ≤ |delta| * 80 := by positivity
  refine ⟨?_, ?_, ?_, ?_⟩
  · rw [emitArcList, emitArcFrom_length]
    simp [arcSteps, pyIntTrunc_of_nonneg _ hpos]
  · have h := emitArcFrom_p1 kind cx cy r a1 delta (arcSteps delta) (arcSteps delta) 1 p0 k hk
    rw [show 1 + k = k + 1 from by omega] at h
    exact h
  · exact (emitArcFrom_p0 kind cx cy r a1 delta (arcSteps delta) (arcSteps delta) 1 p0).1
      (by omega)
  · intro j hj
    have h := (emitArcFrom_p0 kind cx cy r a1 delta (arcSteps delta) (arcSteps delta) 1 p0).2
      j hj
    rw [show 1 + j = j + 1 from by omega] at h
    exact h

/-- Witness for C9: a zero-sweep arc gets the floor of 40 segments, and the
emitted segments obey the closed form at index 0. -/
theorem C9_arc_discretization_witness :
    (0 : ℕ) < arcSteps 0 ∧
    ((emitArcList "travel" 0 0 1 0 0 (arcSteps 0) (1, 0)).length =
      (max 40 ⌊|(0 : ℝ)| * 80⌋).toNat ∧
    ((emitArcList "travel" 0 0 1 0 0 (arcSteps 0) (1, 0))[0]?).map Segment.p1 =
      some (arcPoint 0 0 1 0 0 (arcSteps 0) (0 + 1)) ∧
    ((emitArcList "travel" 0 0 1 0 0 (arcSteps 0) (1, 0))[0]?).map Segment.p0 =
      some (1, 0) ∧
    (∀ j, j + 1 < arcSteps 0 →
      ((emitArcList "travel" 0 0 1 0 0 (arcSteps 0) (1, 0))[j + 1]?).map Segment.p0 =
        some (arcPoint 0 0 1 0 0 (arcSteps 0) (j + 1)))) := by
  have hk : (0 : ℕ) < arcSteps 0 := by norm_num [arcSteps, pyIntTrunc]
  exact ⟨hk, C9_arc_discretization "travel" 0 0 1 0 0 (1, 0) 0 hk⟩

/-- C9 counterexample: for a full-circle arc (`|delta| = 2*pi`) the code
emits `max(40, int(160*pi)) = 502` segments, while the claimed formula
`max(40, round(160*pi))` gives 503. -/
theorem C9_round_vs_trunc_cx :
    (emitArcList "travel" 1 0 1 Real.pi (2 * Real.pi)
        (arcSteps (2 * Real.pi)) (0, 0)).length = 502 ∧
    (max 40 (round (|(2 : ℝ) * Real.pi| * 80))).toNat = 503 := by
  have hpi1 := Real.pi_gt_d6
  have hpi2 := Real.pi_lt_d6
  have habs : |(2 : ℝ) * Real.pi| = 2 * Real.pi := abs_of_pos (by positivity)
  have hfloor : ⌊(2 : ℝ) * Real.pi * 80⌋ = 502 := by
    rw [Int.floor_eq_iff]
    constructor
    · push_cast
      nlinarith
    · push_cast
      nlinarith
  have hround : round ((2 : ℝ) * Real.pi * 80) = 503 := by
    rw [round_eq, Int.floor_eq_iff]
    constructor
    · push_cast
      nlinarith
    · push_cast
      nlinarith
  constructor
  · rw [emitArcList, emitArcFrom_length]
    rw [arcSteps, habs, pyIntTrunc_of_nonneg _ (by positivity), hfloor]
    norm_num
    rfl
  · rw [habs, hround]
    norm_num
    rfl

end CNC
